import Mathlib

/-!
# hkdist build pipeline: a shallow embedding

Source files embedded here: `hkdist/build.go` (`Build`, `Build.Platform`,
`Build.Run`, `Build.cloneAndBuild`, `Build.upload`, `cmd`, `getCreds`,
`Build.register`, `Build.setCurVersion`) and `hkdist/main.go`
(`allPlatforms`, `isValidPlatform`, the `build` case of `main`).

Modelling conventions.
* A Go `string` is a Lean `String` (a sequence of runes); byte slices of file
  contents are `List Nat`.  Indexing the first byte of a tag and comparing it
  with `'v'` is indexing the first rune: in UTF-8 text the first byte is 0x76
  exactly when the first rune is `v`.
* Every call that leaves the process (running `git`, the file system, HTTP,
  S3) takes its outcome from an `Env` record and appends an `Event` to the
  list of events the function returns, in program order.
* A Go function returning `error` returns an `Outcome`: `nil`, an error
  value, a run-time panic, or process exit through `log.Fatal`.
* Library functions (`sha256`, `gzip`, `strconv.Quote`) and the helper
  `badVersionRune`, whose definition is not part of the embedded files, are
  fields of `Deps`.  The helpers `fetchBytes` and `s3put`, also defined
  elsewhere, are external calls: their outcomes are fields of `Env`.
* The registry service is not part of the embedded files; where a statement
  needs its state, it is a map from path to record (`Registry`).
-/

namespace Hkdist

/-! ## Values -/

abbrev Bytes := List Nat

/-- A Go `error` value: its dynamic type name and the text of `Error()`. -/
structure GoError where
  typ : String
  msg : String
deriving DecidableEq, Repr

/-- What a call of a Go function of result type `error` does. -/
inductive Outcome where
  | nil
  | error (e : GoError)
  | panic (msg : String)
  | exit (code : Nat)
deriving DecidableEq, Repr

/-- The outcome is a returned non-nil error. -/
def Outcome.isError : Outcome → Bool
  | .error _ => true
  | _ => false

/-- The function returned (with nil or with an error) instead of ending the process. -/
def Outcome.returned : Outcome → Bool
  | .nil => true
  | .error _ => true
  | _ => false

/-- Result of `fmt.Errorf(prefix + "%s", arg)` for a string argument. -/
def errorfStr (pre arg : String) : GoError :=
  ⟨"*errors.errorString", pre ++ arg⟩

/-- Result of `fmt.Errorf(prefix + "%s", err)`: `%s` prints `err.Error()`. -/
def errorfErr (pre : String) (e : GoError) : GoError :=
  errorfStr pre e.msg

/-- Result of `fmt.Errorf(prefix, err)` where the format has no verb: the
argument is reported as `%!(EXTRA type=value)`. -/
def errorfExtra (pre : String) (e : GoError) : GoError :=
  ⟨"*errors.errorString", pre ++ "%!(EXTRA " ++ e.typ ++ "=" ++ e.msg ++ ")"⟩

/-- Library and helper functions the pipeline is parametric in. -/
structure Deps where
  /-- The predicate `badVersionRune` handed to `strings.IndexFunc`. -/
  badVersionRune : Char → Bool
  /-- The digest `sha256.New()` ... `Sum(nil)` yields for the bytes written. -/
  sha256 : Bytes → Bytes
  /-- The bytes a `gzip.Writer` with header name `name` emits for `data`. -/
  gzip : String → Bytes → Bytes
  /-- The formatting of a string under the verb `%q`. -/
  quote : String → String

/-- The package-level variables of `main.go` read by the build pipeline. -/
structure Config where
  distURL : String
  s3DistURL : String
  buildName : String
  branch : String

/-- The struct `Build`. -/
structure Build where
  Repo : String
  Dir : String
  Branch : String
  Name : String
  Arch : String
  OS : String
  ver : String
deriving DecidableEq, Repr

/-- The method `Build.Platform`. -/
def Build.Platform (b : Build) : String :=
  b.OS ++ "-" ++ b.Arch

/-- Body of a registry `PUT`: the JSON encoding of `struct{ Sha256 []byte }` or
of `struct{ Version string }`, kept as the encoded value. -/
inductive Payload where
  | sha256 (digest : Bytes)
  | version (ver : String)
deriving DecidableEq, Repr

/-- The publish methods of `Build`. -/
inductive PublishOp where
  | upload
  | register
  | setCurVersion
deriving DecidableEq, Repr

/-- Observable actions, in the order the program performs them. -/
inductive Event where
  | log (msg : String)
  | removeAll (dir : String)
  | exec (args : List String)
  | chdir (dir : String)
  | fetchBytes (url : String)
  | create (name : String)
  | write (name : String) (content : String)
  | goBuild (environ : List String) (args : List String)
  | openFile (name : String)
  | hashWrite (data : Bytes)
  | seek (offset : Nat) (whence : Nat)
  | call (op : PublishOp)
  | gzWrite (name : String) (data : Bytes)
  | s3put (url : String) (body : Bytes)
  | httpPut (url : String) (body : Payload)
  | run (b : Build)
deriving DecidableEq, Repr

/-- An HTTP response as far as the pipeline reads it. -/
structure Response where
  StatusCode : Nat
  Status : String
  Body : String
deriving DecidableEq, Repr

/-- Outcomes of the external calls of one `Build.Run`. -/
structure Env where
  removeAll : Option GoError
  gitClone : Except GoError String
  chdirDir : Option GoError
  gitDescribe : Except GoError String
  fetchBytes : String → Except GoError Bytes
  createRelver : Option GoError
  writeRelver : Option GoError
  goBuild : Option GoError
  openFile : Except GoError Bytes
  hashCopy : Option GoError
  seek : Option GoError
  gzCopy : Option GoError
  gzClose : Option GoError
  s3put : Option GoError
  urlUser : String → Option (String × String)
  findMachine : String → Except GoError (String × String)
  regEncode : Option GoError
  regNewRequest : Option GoError
  regDo : Except GoError Response
  curEncode : Option GoError
  curNewRequest : Option GoError
  curDo : Except GoError Response
  chdirUp : Option GoError

/-! ## Strings and paths -/

/-- The code points `unicode.IsSpace` accepts. -/
def isSpace (c : Char) : Bool :=
  let n := c.toNat
  n = 0x09 || n = 0x0A || n = 0x0B || n = 0x0C || n = 0x0D || n = 0x20 ||
  n = 0x85 || n = 0xA0 || n = 0x1680 || (0x2000 ≤ n && n ≤ 0x200A) ||
  n = 0x2028 || n = 0x2029 || n = 0x202F || n = 0x205F || n = 0x3000

/-- The function `bytes.TrimSpace` followed by the conversion to `string`. -/
def trimSpace (s : String) : String :=
  String.mk ((s.data.dropWhile isSpace).reverse.dropWhile isSpace).reverse

/-- Position of the first element satisfying `f`, counted from `i`. -/
def indexFrom (f : Char → Bool) : List Char → Nat → Int
  | [], _ => -1
  | c :: cs, i => if f c then (i : Int) else indexFrom f cs (i + 1)

/-- The function `strings.IndexFunc` (positions counted in runes). -/
def indexFunc (s : String) (f : Char → Bool) : Int :=
  indexFrom f s.data 0

/-- The call `strings.Index(s, "-")` (positions counted in runes). -/
def indexDash (s : String) : Int :=
  indexFrom (fun c => c = '-') s.data 0

/-- A directory as the list of its components below the file-system root
(symbolic links are not modelled). -/
abbrev Path := List String

/-- Components of a slash-separated path. -/
def splitSlash : List Char → List Char → List String
  | acc, [] => [String.mk acc.reverse]
  | acc, c :: cs =>
    if c = '/' then String.mk acc.reverse :: splitSlash [] cs
    else splitSlash (c :: acc) cs

/-- Walk one component from a directory. -/
def stepDir (cwd : Path) (name : String) : Path :=
  if name = "" ∨ name = "." then cwd
  else if name = ".." then cwd.dropLast
  else cwd ++ [name]

/-- The working directory after a successful `os.Chdir(dir)`. -/
def chdirTo (cwd : Path) (dir : String) : Path :=
  match dir.data with
  | '/' :: rest => (splitSlash [] rest).foldl stepDir []
  | cs => (splitSlash [] cs).foldl stepDir cwd

/-! ## The built binary, read through one file handle -/

/-- An open file: its bytes and the read offset of the handle. -/
structure File where
  content : Bytes
  pos : Nat
deriving DecidableEq, Repr

/-- Read from the current offset to end of file, as `io.Copy` does from a
reader: the bytes read and the handle afterwards. -/
def File.readAll (f : File) : Bytes × File :=
  (f.content.drop f.pos, { f with pos := max f.pos f.content.length })

/-- The call `Seek(offset, 0)`: position the handle relative to the start. -/
def File.seekStart (f : File) (offset : Nat) : File :=
  { f with pos := offset }

/-! ## build.go -/

/-- The function `cmd`: log the command line, run it, return its output. -/
def cmd (result : Except GoError String) (arg : List String) :
    Except GoError String × List Event :=
  (result, [Event.log (" ".intercalate arg), Event.exec arg])

/-- The constant `relverGo` with the version substituted for `%q`. -/
def relverGo (d : Deps) (ver : String) : String :=
  "\n// +build release\n\npackage main\nconst Version = " ++ d.quote ver ++ "\n"

/-- The registry path of a release record, as `cloneAndBuild` and `register`
both spell it. -/
def releaseURL (cfg : Config) (b : Build) (ver : String) : String :=
  cfg.distURL ++ b.Name ++ "-" ++ ver ++ "-" ++ b.OS ++ "-" ++ b.Arch ++ ".json"

/-- The method `Build.cloneAndBuild`: outcome, the receiver afterwards, events. -/
def cloneAndBuild (d : Deps) (cfg : Config) (env : Env) (b : Build) :
    Outcome × Build × List Event :=
  let ev0 := (cmd env.gitDescribe ["git", "describe"]).2
  match (cmd env.gitDescribe ["git", "describe"]).1 with
  | .error e => (.error (errorfErr "error listing tags: " e), b, ev0)
  | .ok tagb =>
    let tag := trimSpace tagb
    match tag.data with
    | [] => (.panic "runtime error: index out of range", b, ev0)
    | c :: rest =>
      if c ≠ 'v' then (.error (errorfStr "bad tag name: " tag), b, ev0)
      else
        let ver := String.mk rest
        if indexFunc ver d.badVersionRune ≥ 0 then
          (.error (errorfStr "bad tag name: " tag), b, ev0)
        else
          let url := cfg.distURL ++ b.Name ++ "-" ++ ver ++ "-" ++ b.OS ++ "-" ++ b.Arch ++ ".json"
          let ev1 := ev0 ++ [Event.fetchBytes url]
          match env.fetchBytes url with
          | .ok _ => (.error (errorfStr "already built: " ver), b, ev1)
          | .error _ =>
            let ev2 := ev1 ++ [Event.create "relver.go"]
            match env.createRelver with
            | some e => (.error (errorfErr "error writing relver.go: " e), b, ev2)
            | none =>
              let ev3 := ev2 ++ [Event.write "relver.go" (relverGo d ver)]
              match env.writeRelver with
              | some e => (.error (errorfErr "error writing relver.go: " e), b, ev3)
              | none =>
                let ev4 := ev3 ++
                  [Event.log ("GOOS=" ++ b.OS ++ " GOARCH=" ++ b.Arch ++
                      " go build -tags release -o " ++ b.Name ++ "\n"),
                   Event.goBuild ["GOOS=" ++ b.OS, "GOARCH=" ++ b.Arch]
                     ["go", "build", "-tags", "release", "-o", b.Name]]
                match env.goBuild with
                | some e => (.error (errorfExtra "go build -tags release: " e), b, ev4)
                | none => (.nil, { b with ver := ver }, ev4)

/-- The method `Build.upload`, reading from the handle `r`. -/
def upload (d : Deps) (cfg : Config) (env : Env) (b : Build) (r : File) :
    Outcome × File × List Event :=
  let ev0 := [Event.call .upload]
  let gzName := b.Name ++ "-" ++ b.ver
  match env.gzCopy with
  | some e => (.error e, r, ev0)
  | none =>
    let rd := r.readAll
    let ev1 := ev0 ++ [Event.gzWrite gzName rd.1]
    match env.gzClose with
    | some e => (.error e, rd.2, ev1)
    | none =>
      let buf := d.gzip gzName rd.1
      let filename := b.Name ++ "-" ++ b.ver ++ "-" ++ b.OS ++ "-" ++ b.Arch ++ ".gz"
      let ev2 := ev1 ++ [Event.s3put (cfg.s3DistURL ++ filename) buf]
      match env.s3put with
      | some e => (.error e, rd.2, ev2)
      | none => (.nil, rd.2, ev2)

/-- The function `getCreds`: the credentials, or `none` when it ends the
process through `log.Fatalf`. -/
def getCreds (env : Env) (url : String) : Option (String × String) :=
  match env.urlUser url with
  | some up => some up
  | none =>
    match env.findMachine url with
    | .error _ => none
    | .ok m => some m

/-- The error both registry calls build from a response of unexpected status. -/
def statusError (d : Deps) (resp : Response) (url : String) : GoError :=
  errorfStr "http status "
    (resp.Status ++ " putting " ++ d.quote url ++ ": " ++ d.quote resp.Body)

/-- The method `Build.register`. -/
def register (d : Deps) (cfg : Config) (env : Env) (b : Build) (sha256 : Bytes) :
    Outcome × List Event :=
  let url := cfg.distURL ++ b.Name ++ "-" ++ b.ver ++ "-" ++ b.OS ++ "-" ++ b.Arch ++ ".json"
  let ev0 := [Event.call .register]
  match env.regEncode with
  | some e => (.error e, ev0)
  | none =>
    match env.regNewRequest with
    | some e => (.error e, ev0)
    | none =>
      match getCreds env url with
      | none => (.exit 1, ev0)
      | some _ =>
        let ev1 := ev0 ++ [Event.httpPut url (.sha256 sha256)]
        match env.regDo with
        | .error e => (.error e, ev1)
        | .ok resp =>
          if resp.StatusCode ≠ 201 then (.error (statusError d resp url), ev1)
          else (.nil, ev1)

/-- The method `Build.setCurVersion`. -/
def setCurVersion (d : Deps) (cfg : Config) (env : Env) (b : Build) :
    Outcome × List Event :=
  let url := cfg.distURL ++ b.Name ++ "-" ++ b.Platform ++ ".json"
  let ev0 := [Event.call .setCurVersion]
  match env.curEncode with
  | some e => (.error e, ev0)
  | none =>
    match env.curNewRequest with
    | some e => (.error e, ev0)
    | none =>
      match getCreds env url with
      | none => (.exit 1, ev0)
      | some _ =>
        let ev1 := ev0 ++ [Event.httpPut url (.version b.ver)]
        match env.curDo with
        | .error e => (.error e, ev1)
        | .ok resp =>
          if resp.StatusCode ≠ 200 then (.error (statusError d resp url), ev1)
          else (.nil, ev1)

/-- What one `Build.Run` leaves behind. -/
structure Ret where
  out : Outcome
  b : Build
  cwd : Path
  events : List Event

/-- The method `Build.Run`, started in working directory `cwd`.  A panic or a
process exit inside a called method ends `Run` with it. -/
def Run (d : Deps) (cfg : Config) (env : Env) (b : Build) (cwd : Path) : Ret :=
  let ev0 := [Event.removeAll b.Dir]
  match env.removeAll with
  | some e => ⟨.error e, b, cwd, ev0⟩
  | none =>
    let ev1 := ev0 ++ (cmd env.gitClone ["git", "clone", "-b", b.Branch, b.Repo, b.Dir]).2
    match (cmd env.gitClone ["git", "clone", "-b", b.Branch, b.Repo, b.Dir]).1 with
    | .error e => ⟨.error (errorfExtra "clone failure: " e), b, cwd, ev1⟩
    | .ok _ =>
      let ev2 := ev1 ++ [Event.chdir b.Dir]
      match env.chdirDir with
      | some e => ⟨.error e, b, cwd, ev2⟩
      | none =>
        let cwd1 := chdirTo cwd b.Dir
        let cb := cloneAndBuild d cfg env b
        let b1 := cb.2.1
        let ev3 := ev2 ++ cb.2.2
        match cb.1 with
        | .error e => ⟨.error e, b1, cwd1, ev3⟩
        | .panic msg => ⟨.panic msg, b1, cwd1, ev3⟩
        | .exit code => ⟨.exit code, b1, cwd1, ev3⟩
        | .nil =>
          let ev4 := ev3 ++ [Event.openFile b1.Name]
          match env.openFile with
          | .error e => ⟨.error (errorfErr "open failure: " e), b1, cwd1, ev4⟩
          | .ok content =>
            let body : File := ⟨content, 0⟩
            match env.hashCopy with
            | some e => ⟨.error e, b1, cwd1, ev4⟩
            | none =>
              let rd := body.readAll
              let shasum := d.sha256 rd.1
              let ev5 := ev4 ++ [Event.hashWrite rd.1, Event.seek 0 0]
              match env.seek with
              | some e => ⟨.error e, b1, cwd1, ev5⟩
              | none =>
                let up := upload d cfg env b1 (rd.2.seekStart 0)
                let ev6 := ev5 ++ up.2.2
                match up.1 with
                | .error e => ⟨.error (errorfErr "upload failure: " e), b1, cwd1, ev6⟩
                | .panic msg => ⟨.panic msg, b1, cwd1, ev6⟩
                | .exit code => ⟨.exit code, b1, cwd1, ev6⟩
                | .nil =>
                  let rg := register d cfg env b1 shasum
                  let ev7 := ev6 ++ rg.2
                  match rg.1 with
                  | .error e => ⟨.error (errorfErr "registration failure: " e), b1, cwd1, ev7⟩
                  | .panic msg => ⟨.panic msg, b1, cwd1, ev7⟩
                  | .exit code => ⟨.exit code, b1, cwd1, ev7⟩
                  | .nil =>
                    let sc := setCurVersion d cfg env b1
                    let ev8 := ev7 ++ sc.2
                    match sc.1 with
                    | .error e => ⟨.error (errorfErr "release failure: " e), b1, cwd1, ev8⟩
                    | .panic msg => ⟨.panic msg, b1, cwd1, ev8⟩
                    | .exit code => ⟨.exit code, b1, cwd1, ev8⟩
                    | .nil =>
                      let ev9 := ev8 ++ [Event.chdir ".."]
                      match env.chdirUp with
                      | some e => ⟨.error e, b1, cwd1, ev9⟩
                      | none => ⟨.nil, b1, chdirTo cwd1 "..", ev9⟩

/-! ## main.go -/

/-- The variable `allPlatforms`. -/
def allPlatforms : List String :=
  [ "darwin-386",
    "darwin-amd64",
    "freebsd-386",
    "freebsd-amd64",
    "freebsd-arm",
    "linux-386",
    "linux-amd64",
    "linux-arm",
    "windows-386",
    "windows-amd64" ]

/-- The loop of `isValidPlatform` over the remaining allowed names, with the
statement after the loop. -/
def isValidPlatformLoop (platform : String) : List String → Bool
  | [] => true
  | allowed :: rest =>
    if allowed = platform then true else isValidPlatformLoop platform rest

/-- The function `isValidPlatform`. -/
def isValidPlatform (platform : String) : Bool :=
  isValidPlatformLoop platform allPlatforms

/-- What the `build` case of `main` does with its arguments before the loop:
the platforms to build, or `none` when `usage()` ends the process. -/
def selectPlatforms (args : List String) (goos goarch : String) : Option (List String) :=
  match args with
  | _ :: _ :: third :: rest =>
    if third = "all" then some allPlatforms
    else if (third :: rest).all isValidPlatform then some (third :: rest)
    else none
  | _ => some [goos ++ "-" ++ goarch]

/-- The `Build` value the loop of `main` constructs for a platform whose first
`-` is at position `sepIndex`. -/
def mkBuild (cfg : Config) (platform : String) (sepIndex : Nat) : Build :=
  { Repo := "https://github.com/kr/hk.git",
    Dir := "hk",
    Branch := cfg.branch,
    Name := cfg.buildName,
    OS := String.mk (platform.data.take sepIndex),
    Arch := String.mk (platform.data.drop (sepIndex + 1)),
    ver := "" }

/-- The message `main` logs when a platform's `Run` returns an error. -/
def buildErrorMsg (b : Build) (e : GoError) : String :=
  "Error building " ++ b.Name ++ " on " ++ b.Branch ++ " for " ++ b.OS ++ "-" ++ b.Arch ++
    ": " ++ e.msg

/-- How the loop of `main` ends. -/
inductive LoopEnd where
  | done
  | panic (msg : String)
  | exit (code : Nat)
deriving DecidableEq, Repr

/-- The loop `for _, platform := range platforms` of `main`: the `i`-th
iteration takes the outcomes of its external calls from `envOf i`.  Each call
of `Run` is recorded as `Event.run` with the receiver it is called on. -/
def buildLoop (d : Deps) (cfg : Config) (envOf : Nat → Env) :
    List String → Nat → Path → LoopEnd × Path × List Event
  | [], _, cwd => (.done, cwd, [])
  | platform :: rest, i, cwd =>
    let sepIndex := indexDash platform
    if sepIndex < 0 then (.panic "runtime error: slice bounds out of range", cwd, [])
    else
      let b := mkBuild cfg platform sepIndex.toNat
      let r := Run d cfg (envOf i) b cwd
      match r.out with
      | .nil =>
        let l := buildLoop d cfg envOf rest (i + 1) r.cwd
        (l.1, l.2.1, Event.run b :: r.events ++ l.2.2)
      | .error e =>
        let l := buildLoop d cfg envOf rest (i + 1) r.cwd
        (l.1, l.2.1, Event.run b :: r.events ++ Event.log (buildErrorMsg r.b e) :: l.2.2)
      | .panic msg => (.panic msg, r.cwd, Event.run b :: r.events)
      | .exit code => (.exit code, r.cwd, Event.run b :: r.events)

/-! ## Observations on event lists -/

/-- The publish methods called, in call order. -/
def publishOps (evs : List Event) : List PublishOp :=
  evs.filterMap fun ev =>
    match ev with
    | .call op => some op
    | _ => none

/-- The event is a remote call or a build: a registry lookup, a `go build`,
a publish method, an S3 upload or a registry `PUT`. -/
def Event.isRemoteOrBuild : Event → Bool
  | .fetchBytes _ => true
  | .goBuild _ _ => true
  | .call _ => true
  | .s3put _ _ => true
  | .httpPut _ _ => true
  | _ => false

/-- The event belongs to building or publishing: writing `relver.go`,
`go build`, a publish method, an S3 upload or a registry `PUT`. -/
def Event.isBuildOrPublish : Event → Bool
  | .create _ => true
  | .write _ _ => true
  | .goBuild _ _ => true
  | .call _ => true
  | .s3put _ _ => true
  | .httpPut _ _ => true
  | _ => false

/-- The calls of `Run` recorded in an event list, in call order. -/
def runCalls (evs : List Event) : List Build :=
  evs.filterMap fun ev =>
    match ev with
    | .run b => some b
    | _ => none

/-- The outcome of `upload`: it depends on the three fallible steps only. -/
def uploadOut (env : Env) : Outcome :=
  match env.gzCopy with
  | some e => .error e
  | none =>
    match env.gzClose with
    | some e => .error e
    | none =>
      match env.s3put with
      | some e => .error e
      | none => .nil

/-- The outcome of `register`: it does not depend on the digest sent. -/
def registerOut (d : Deps) (cfg : Config) (env : Env) (b : Build) : Outcome :=
  (register d cfg env b []).1

/-- The event is one of those before the binary is read: file-system and
`git` steps, log lines, the registry lookup and the build. -/
def Event.isSetup : Event → Bool
  | .log _ => true
  | .removeAll _ => true
  | .exec _ => true
  | .chdir _ => true
  | .fetchBytes _ => true
  | .create _ => true
  | .write _ _ => true
  | .goBuild _ _ => true
  | .openFile _ => true
  | _ => false

/-- The events `Run` may issue once the binary with content `c` is open. -/
def Event.afterOpen (d : Deps) (cfg : Config) (env : Env) (b1 : Build) (c : Bytes)
    (ev : Event) : Prop :=
  ev = .hashWrite c ∨ ev = .seek 0 0 ∨
  ev ∈ (upload d cfg env b1 ⟨c, 0⟩).2.2 ∨
  ev ∈ (register d cfg env b1 (d.sha256 c)).2 ∨
  ev ∈ (setCurVersion d cfg env b1).2

/-! ## Sample inputs -/

/-- Modelled from the spec: the helper `badVersionRune` (defined outside the
embedded files) rejects every rune outside the allowed set "alphanumeric,
dot, dash". -/
def badVersionRuneSpec (c : Char) : Bool :=
  !(c.isAlphanum || c = '.' || c = '-')

/-- Stand-ins for the library functions, for evaluating the pipeline on
sample inputs: a toy digest (length and byte sum), a toy container (two magic
bytes, the name length, the data) and quoting without escapes. -/
def sampleDeps : Deps :=
  { badVersionRune := badVersionRuneSpec,
    sha256 := fun data => [data.length, data.sum],
    gzip := fun name data => 31 :: 139 :: name.length :: data,
    quote := fun s => "\"" ++ s ++ "\"" }

/-- Sample configuration. -/
def sampleCfg : Config :=
  { distURL := "https://dist.example/",
    s3DistURL := "https://s3.example/",
    buildName := "widget",
    branch := "master" }

/-- Sample run in which every external call succeeds: tag `v1.2.3`, no release
record at the looked-up path, a three-byte binary, `201` and `200` answers. -/
def sampleEnv : Env :=
  { removeAll := none,
    gitClone := .ok "",
    chdirDir := none,
    gitDescribe := .ok "v1.2.3\n",
    fetchBytes := fun _ => .error ⟨"*errors.errorString", "404 Not Found"⟩,
    createRelver := none,
    writeRelver := none,
    goBuild := none,
    openFile := .ok [1, 2, 3],
    hashCopy := none,
    seek := none,
    gzCopy := none,
    gzClose := none,
    s3put := none,
    urlUser := fun _ => some ("user", "secret"),
    findMachine := fun _ => .error ⟨"*errors.errorString", "no machine"⟩,
    regEncode := none,
    regNewRequest := none,
    regDo := .ok ⟨201, "201 Created", ""⟩,
    curEncode := none,
    curNewRequest := none,
    curDo := .ok ⟨200, "200 OK", ""⟩,
    chdirUp := none }

/-- The `Build` that `main` constructs for `linux-amd64` under `sampleCfg`. -/
def sampleBuild : Build :=
  mkBuild sampleCfg "linux-amd64" 5

/-! ## The registry, as far as the pipeline talks to it -/

/-- Modelled from the spec: the registry service (not part of the embedded
files) is a map from path to record. -/
abbrev Registry := String → Option Payload

/-- Modelled from the spec: a `PUT` the registry accepted stores the record at
its path. -/
def Registry.put (reg : Registry) (url : String) (p : Payload) : Registry :=
  fun u => if u = url then some p else reg u

/-- The registry after the registry `PUT`s of an event list, all accepted. -/
def registryAfter (reg : Registry) (evs : List Event) : Registry :=
  evs.foldl
    (fun r ev =>
      match ev with
      | .httpPut url p => r.put url p
      | _ => r)
    reg

/-- The bytes of a stored record. -/
def Payload.bytes : Payload → Bytes
  | .sha256 digest => digest
  | .version ver => ver.data.map Char.toNat

/-- Modelled from the spec: `fetchBytes` (defined outside the embedded files)
against a registry: `GET` of a path "returns existing release metadata",
"absence signaled by a non-success status". -/
def registryFetch (reg : Registry) (url : String) : Except GoError Bytes :=
  match reg url with
  | some p => .ok p.bytes
  | none => .error ⟨"*errors.errorString", "404 Not Found"⟩

/-- The empty registry. -/
def emptyRegistry : Registry := fun _ => none

/-- The sample run against a registry: the lookup is answered from `reg`. -/
def sampleEnvOn (reg : Registry) : Env :=
  { sampleEnv with fetchBytes := registryFetch reg }

/-- The sample run with a `git describe` output given. -/
def sampleEnvTag (out : String) : Env :=
  { sampleEnv with gitDescribe := .ok out }

/-- The sample run where the registry lookup fails with a network error. -/
def sampleEnvNetworkError : Env :=
  { sampleEnv with
    fetchBytes := fun _ => .error ⟨"*net.OpError", "dial tcp: connection refused"⟩ }

/-- The sample run with the registry answers given. -/
def sampleEnvAnswers (reg cur : Response) : Env :=
  { sampleEnv with regDo := .ok reg, curDo := .ok cur }

/-- The sample run in which the registry answers `409 Conflict` to `register`. -/
def sampleEnvConflict : Env :=
  sampleEnvAnswers ⟨409, "409 Conflict", "exists"⟩ ⟨200, "200 OK", ""⟩

/-- The sample run over a binary with the given content. -/
def sampleEnvBinary (c : Bytes) : Env :=
  { sampleEnv with openFile := .ok c }

/-! ## Lemmas on the string helpers -/

theorem indexFrom_neg_iff (f : Char → Bool) (l : List Char) (i : Nat) :
    indexFrom f l i < 0 ↔ ∀ c ∈ l, f c = false := by
  induction l generalizing i with
  | nil => simp [indexFrom]
  | cons c cs ih =>
    by_cases h : f c = true
    · simp [indexFrom, h]
    · simp only [Bool.not_eq_true] at h
      simp [indexFrom, h, ih]

theorem indexFunc_nonneg_iff (s : String) (f : Char → Bool) :
    0 ≤ indexFunc s f ↔ ∃ c ∈ s.data, f c = true := by
  have h := indexFrom_neg_iff f s.data 0
  unfold indexFunc
  constructor
  · intro h0
    by_contra hne
    push_neg at hne
    have : indexFrom f s.data 0 < 0 := h.2 (fun c hc => by simpa using hne c hc)
    omega
  · rintro ⟨c, hc, hfc⟩
    by_contra hlt
    have hall := h.1 (by omega)
    simp [hall c hc] at hfc

/-! ## Lemmas on the publish methods -/

theorem publishOps_append (xs ys : List Event) :
    publishOps (xs ++ ys) = publishOps xs ++ publishOps ys := by
  simp [publishOps, List.filterMap_append]

theorem publishOps_cloneAndBuild (d : Deps) (cfg : Config) (env : Env) (b : Build) :
    publishOps (cloneAndBuild d cfg env b).2.2 = [] := by
  unfold cloneAndBuild
  simp only [cmd]
  split; · simp [publishOps]
  split; · simp [publishOps]
  split; · simp [publishOps]
  split; · simp [publishOps]
  split; · simp [publishOps]
  split; · simp [publishOps]
  split; · simp [publishOps]
  split <;> simp [publishOps]

theorem publishOps_upload (d : Deps) (cfg : Config) (env : Env) (b : Build) (f : File) :
    publishOps (upload d cfg env b f).2.2 = [.upload] := by
  unfold upload
  simp only []
  split; · simp [publishOps]
  split; · simp [publishOps]
  split <;> simp [publishOps]

theorem publishOps_register (d : Deps) (cfg : Config) (env : Env) (b : Build) (sha : Bytes) :
    publishOps (register d cfg env b sha).2 = [.register] := by
  unfold register
  simp only []
  split; · simp [publishOps]
  split; · simp [publishOps]
  split; · simp [publishOps]
  split; · simp [publishOps]
  split <;> simp [publishOps]

theorem publishOps_setCurVersion (d : Deps) (cfg : Config) (env : Env) (b : Build) :
    publishOps (setCurVersion d cfg env b).2 = [.setCurVersion] := by
  unfold setCurVersion
  simp only []
  split; · simp [publishOps]
  split; · simp [publishOps]
  split; · simp [publishOps]
  split; · simp [publishOps]
  split <;> simp [publishOps]

theorem upload_out (d : Deps) (cfg : Config) (env : Env) (b : Build) (f : File) :
    (upload d cfg env b f).1 = uploadOut env := by
  unfold uploadOut upload
  simp only []
  split; · simp
  split; · simp
  split <;> simp

theorem register_out (d : Deps) (cfg : Config) (env : Env) (b : Build) (s : Bytes) :
    (register d cfg env b s).1 = registerOut d cfg env b := by
  unfold registerOut register
  simp only []
  split; · simp
  split; · simp
  split; · simp
  split; · simp
  split <;> simp

theorem uploadOut_ne_panic (env : Env) (msg : String) : uploadOut env ≠ .panic msg := by
  unfold uploadOut
  split; · simp
  split; · simp
  split <;> simp

theorem uploadOut_ne_exit (env : Env) (code : Nat) : uploadOut env ≠ .exit code := by
  unfold uploadOut
  split; · simp
  split; · simp
  split <;> simp

theorem registerOut_ne_panic (d : Deps) (cfg : Config) (env : Env) (b : Build) (msg : String) :
    registerOut d cfg env b ≠ .panic msg := by
  unfold registerOut register
  simp only []
  split; · simp
  split; · simp
  split; · simp
  split; · simp
  split <;> simp

theorem setCurVersion_ne_panic (d : Deps) (cfg : Config) (env : Env) (b : Build) (msg : String) :
    (setCurVersion d cfg env b).1 ≠ .panic msg := by
  unfold setCurVersion
  simp only []
  split; · simp
  split; · simp
  split; · simp
  split; · simp
  split <;> simp

theorem publishOps_nil : publishOps [] = [] := rfl

theorem publishOps_cons (ev : Event) (evs : List Event) :
    publishOps (ev :: evs) =
      (match ev with
        | .call op => [op]
        | _ => []) ++ publishOps evs := by
  cases ev <;> simp [publishOps, List.filterMap_cons]

/-! ## The events of each method -/

theorem intercalate_git_describe : " ".intercalate ["git", "describe"] = "git describe" := by
  decide

theorem cloneAndBuild_events_setup (d : Deps) (cfg : Config) (env : Env) (b : Build) :
    ∀ ev ∈ (cloneAndBuild d cfg env b).2.2, ev.isSetup = true := by
  unfold cloneAndBuild
  simp only [cmd]
  split; · simp [Event.isSetup]
  split; · simp [Event.isSetup]
  split; · simp [Event.isSetup]
  split; · simp [Event.isSetup]
  split; · simp [Event.isSetup]
  split; · simp [Event.isSetup]
  split; · simp [Event.isSetup]
  split <;> simp [Event.isSetup]

theorem cloneAndBuild_ne_exit (d : Deps) (cfg : Config) (env : Env) (b : Build) (code : Nat) :
    (cloneAndBuild d cfg env b).1 ≠ .exit code := by
  unfold cloneAndBuild
  simp only [cmd]
  split; · simp
  split; · simp
  split; · simp
  split; · simp
  split; · simp
  split; · simp
  split; · simp
  split <;> simp

/-- When `cloneAndBuild` does not return nil it leaves the receiver as it was. -/
theorem cloneAndBuild_build_unchanged (d : Deps) (cfg : Config) (env : Env) (b : Build)
    (h : (cloneAndBuild d cfg env b).1 ≠ .nil) : (cloneAndBuild d cfg env b).2.1 = b := by
  revert h
  unfold cloneAndBuild
  simp only [cmd]
  split; · simp
  split; · simp
  split; · simp
  split; · simp
  split; · simp
  split; · simp
  split; · simp
  split <;> simp

/-- What a nil return of `cloneAndBuild` says about the tag and the external
calls, and the exact result in that case. -/
theorem cloneAndBuild_nil_inv (d : Deps) (cfg : Config) (env : Env) (b : Build)
    (h : (cloneAndBuild d cfg env b).1 = .nil) :
    ∃ out rest, env.gitDescribe = .ok out ∧ (trimSpace out).data = 'v' :: rest ∧
      (∀ r ∈ rest, d.badVersionRune r = false) ∧
      (∃ e, env.fetchBytes (releaseURL cfg b (String.mk rest)) = .error e) ∧
      env.createRelver = none ∧ env.writeRelver = none ∧ env.goBuild = none ∧
      (cloneAndBuild d cfg env b).2.1 = { b with ver := String.mk rest } ∧
      (cloneAndBuild d cfg env b).2.2 =
        [Event.log "git describe", Event.exec ["git", "describe"],
         Event.fetchBytes (releaseURL cfg b (String.mk rest)),
         Event.create "relver.go",
         Event.write "relver.go" (relverGo d (String.mk rest)),
         Event.log ("GOOS=" ++ b.OS ++ " GOARCH=" ++ b.Arch ++
           " go build -tags release -o " ++ b.Name ++ "\n"),
         Event.goBuild ["GOOS=" ++ b.OS, "GOARCH=" ++ b.Arch]
           ["go", "build", "-tags", "release", "-o", b.Name]] := by
  revert h
  unfold cloneAndBuild
  simp only [cmd, intercalate_git_describe, releaseURL]
  split; · simp
  rename_i out hout
  split; · simp
  rename_i c rest htag
  split; · simp
  rename_i hc
  split; · simp
  rename_i hidx
  split; · simp
  rename_i e hfetch
  split; · simp
  rename_i hcreate
  split; · simp
  rename_i hwrite
  split; · simp
  rename_i hbuild
  intro _
  simp only [ne_eq, Decidable.not_not] at hc
  subst hc
  refine ⟨out, rest, hout, htag, ?_, ⟨e, hfetch⟩, hcreate, hwrite, hbuild, rfl, rfl⟩
  intro r hr
  by_contra hne
  simp only [Bool.not_eq_false] at hne
  exact hidx ((indexFunc_nonneg_iff _ _).2 ⟨r, hr, hne⟩)

theorem upload_events (d : Deps) (cfg : Config) (env : Env) (b : Build) (f : File) :
    ∀ ev ∈ (upload d cfg env b f).2.2,
      ev = .call .upload ∨ ev = .gzWrite (b.Name ++ "-" ++ b.ver) f.readAll.1 ∨
      ev = .s3put (cfg.s3DistURL ++ (b.Name ++ "-" ++ b.ver ++ "-" ++ b.OS ++ "-" ++ b.Arch ++ ".gz"))
        (d.gzip (b.Name ++ "-" ++ b.ver) f.readAll.1) := by
  unfold upload
  simp only []
  split; · simp
  split; · simp
  split <;> simp

theorem upload_events_of_nil (d : Deps) (cfg : Config) (env : Env) (b : Build) (f : File)
    (h : uploadOut env = .nil) :
    (upload d cfg env b f).2.2 =
      [.call .upload, .gzWrite (b.Name ++ "-" ++ b.ver) f.readAll.1,
       .s3put (cfg.s3DistURL ++ (b.Name ++ "-" ++ b.ver ++ "-" ++ b.OS ++ "-" ++ b.Arch ++ ".gz"))
        (d.gzip (b.Name ++ "-" ++ b.ver) f.readAll.1)] := by
  revert h
  unfold uploadOut upload
  simp only []
  split; · simp
  split; · simp
  split <;> simp

theorem register_events (d : Deps) (cfg : Config) (env : Env) (b : Build) (sha : Bytes) :
    ∀ ev ∈ (register d cfg env b sha).2,
      ev = .call .register ∨ ev = .httpPut (releaseURL cfg b b.ver) (.sha256 sha) := by
  unfold register
  simp only [releaseURL]
  split; · simp
  split; · simp
  split; · simp
  split; · simp
  split <;> simp

theorem register_nil_inv (d : Deps) (cfg : Config) (env : Env) (b : Build) (sha : Bytes)
    (h : (register d cfg env b sha).1 = .nil) :
    (∃ resp, env.regDo = .ok resp ∧ resp.StatusCode = 201) ∧
    (register d cfg env b sha).2 =
      [.call .register, .httpPut (releaseURL cfg b b.ver) (.sha256 sha)] := by
  revert h
  unfold register
  simp only [releaseURL]
  split; · simp
  split; · simp
  split; · simp
  split; · simp
  split
  · simp
  · rename_i resp hresp hst
    simp only [ne_eq, Decidable.not_not] at hst
    simp only [hst]
    exact fun _ => ⟨⟨resp, hresp, hst⟩, rfl⟩

theorem setCurVersion_events (d : Deps) (cfg : Config) (env : Env) (b : Build) :
    ∀ ev ∈ (setCurVersion d cfg env b).2,
      ev = .call .setCurVersion ∨
      ev = .httpPut (cfg.distURL ++ b.Name ++ "-" ++ b.Platform ++ ".json") (.version b.ver) := by
  unfold setCurVersion
  simp only []
  split; · simp
  split; · simp
  split; · simp
  split; · simp
  split <;> simp

theorem setCurVersion_nil_inv (d : Deps) (cfg : Config) (env : Env) (b : Build)
    (h : (setCurVersion d cfg env b).1 = .nil) :
    (∃ resp, env.curDo = .ok resp ∧ resp.StatusCode = 200) ∧
    (setCurVersion d cfg env b).2 =
      [.call .setCurVersion,
       .httpPut (cfg.distURL ++ b.Name ++ "-" ++ b.Platform ++ ".json") (.version b.ver)] := by
  revert h
  unfold setCurVersion
  simp only []
  split; · simp
  split; · simp
  split; · simp
  split; · simp
  split
  · simp
  · rename_i resp hresp hst
    simp only [ne_eq, Decidable.not_not] at hst
    simp only [hst]
    exact fun _ => ⟨⟨resp, hresp, hst⟩, rfl⟩

/-! ## The shape of a run -/

theorem readAll_fresh (c : Bytes) : (File.readAll ⟨c, 0⟩) = (c, ⟨c, c.length⟩) := by
  simp [File.readAll]

/-- What a nil return of `Run` says about the external calls, and the exact
result in that case. -/
theorem Run_nil_inv (d : Deps) (cfg : Config) (env : Env) (b : Build) (cwd : Path)
    (h : (Run d cfg env b cwd).out = .nil) :
    env.removeAll = none ∧ (∃ o, env.gitClone = .ok o) ∧ env.chdirDir = none ∧
    (cloneAndBuild d cfg env b).1 = .nil ∧
    ∃ c, env.openFile = .ok c ∧ env.hashCopy = none ∧ env.seek = none ∧
      uploadOut env = .nil ∧
      registerOut d cfg env (cloneAndBuild d cfg env b).2.1 = .nil ∧
      (setCurVersion d cfg env (cloneAndBuild d cfg env b).2.1).1 = .nil ∧
      env.chdirUp = none ∧
      (Run d cfg env b cwd).b = (cloneAndBuild d cfg env b).2.1 ∧
      (Run d cfg env b cwd).cwd = chdirTo (chdirTo cwd b.Dir) ".." ∧
      (Run d cfg env b cwd).events =
        [Event.removeAll b.Dir,
         Event.log (" ".intercalate ["git", "clone", "-b", b.Branch, b.Repo, b.Dir]),
         Event.exec ["git", "clone", "-b", b.Branch, b.Repo, b.Dir],
         Event.chdir b.Dir] ++
        (cloneAndBuild d cfg env b).2.2 ++
        [Event.openFile (cloneAndBuild d cfg env b).2.1.Name, Event.hashWrite c, Event.seek 0 0] ++
        (upload d cfg env (cloneAndBuild d cfg env b).2.1 ⟨c, 0⟩).2.2 ++
        (register d cfg env (cloneAndBuild d cfg env b).2.1 (d.sha256 c)).2 ++
        (setCurVersion d cfg env (cloneAndBuild d cfg env b).2.1).2 ++
        [Event.chdir ".."] := by
  revert h
  unfold Run
  simp only [upload_out, register_out, cmd, readAll_fresh, File.seekStart]
  split; · simp
  rename_i hrm
  split; · simp
  rename_i o hclone
  split; · simp
  rename_i hcd
  split; · simp
  · simp
  · simp
  rename_i hcb
  split; · simp
  rename_i c hopen
  split; · simp
  rename_i hhash
  split; · simp
  rename_i hseek
  split; · simp
  · simp
  · simp
  rename_i hup
  split; · simp
  · simp
  · simp
  rename_i hreg
  split; · simp
  · simp
  · simp
  rename_i hcur
  split; · simp
  rename_i hup2
  intro _
  refine ⟨hrm, ⟨o, hclone⟩, hcd, hcb, c, hopen, hhash, hseek, hup, hreg, hcur, hup2, rfl, rfl, ?_⟩
  simp

/-- Every event of a run is a set-up event, or one of the events of hashing,
rewinding and the three publish methods on the opened binary. -/
theorem Run_events_shape (d : Deps) (cfg : Config) (env : Env) (b : Build) (cwd : Path) :
    ∀ ev ∈ (Run d cfg env b cwd).events, ev.isSetup = true ∨
      ∃ c, env.openFile = .ok c ∧ (cloneAndBuild d cfg env b).1 = .nil ∧
        (Run d cfg env b cwd).b = (cloneAndBuild d cfg env b).2.1 ∧
        ev.afterOpen d cfg env (Run d cfg env b cwd).b c := by
  have hs := cloneAndBuild_events_setup d cfg env b
  unfold Run
  simp only [upload_out, register_out, cmd, readAll_fresh, File.seekStart]
  split; · simp [Event.isSetup]
  split; · simp [Event.isSetup]
  split; · simp [Event.isSetup]
  have hpre : ∀ ev ∈ [Event.removeAll b.Dir] ++
      [Event.log (" ".intercalate ["git", "clone", "-b", b.Branch, b.Repo, b.Dir]),
        Event.exec ["git", "clone", "-b", b.Branch, b.Repo, b.Dir]] ++ [Event.chdir b.Dir] ++
      (cloneAndBuild d cfg env b).2.2, ev.isSetup = true := by
    intro ev hev
    simp only [List.mem_append, List.mem_cons, List.mem_singleton, List.not_mem_nil, or_false]
      at hev
    rcases hev with ((rfl | rfl | rfl) | rfl) | hev
    · rfl
    · rfl
    · rfl
    · rfl
    · exact hs ev hev
  split; · exact fun ev hev => Or.inl (hpre ev hev)
  · exact fun ev hev => Or.inl (hpre ev hev)
  · exact fun ev hev => Or.inl (hpre ev hev)
  rename_i hcb
  have hpre2 : ∀ ev ∈ [Event.removeAll b.Dir] ++
      [Event.log (" ".intercalate ["git", "clone", "-b", b.Branch, b.Repo, b.Dir]),
        Event.exec ["git", "clone", "-b", b.Branch, b.Repo, b.Dir]] ++ [Event.chdir b.Dir] ++
      (cloneAndBuild d cfg env b).2.2 ++ [Event.openFile (cloneAndBuild d cfg env b).2.1.Name],
      ev.isSetup = true := by
    intro ev hev
    rcases List.mem_append.1 hev with h | h
    · exact hpre ev h
    · simp only [List.mem_singleton] at h
      subst h
      rfl
  split; · exact fun ev hev => Or.inl (hpre2 ev hev)
  rename_i c hopen
  split; · exact fun ev hev => Or.inl (hpre2 ev hev)
  have hpre3 : ∀ ev ∈ [Event.removeAll b.Dir] ++
      [Event.log (" ".intercalate ["git", "clone", "-b", b.Branch, b.Repo, b.Dir]),
        Event.exec ["git", "clone", "-b", b.Branch, b.Repo, b.Dir]] ++ [Event.chdir b.Dir] ++
      (cloneAndBuild d cfg env b).2.2 ++ [Event.openFile (cloneAndBuild d cfg env b).2.1.Name] ++
      [Event.hashWrite c, Event.seek 0 0],
      ev.isSetup = true ∨ ∃ c', env.openFile = .ok c' ∧ (cloneAndBuild d cfg env b).1 = .nil ∧
        (cloneAndBuild d cfg env b).2.1 = (cloneAndBuild d cfg env b).2.1 ∧
        ev.afterOpen d cfg env (cloneAndBuild d cfg env b).2.1 c' := by
    intro ev hev
    rcases List.mem_append.1 hev with h | h
    · exact Or.inl (hpre2 ev h)
    · simp only [List.mem_cons, List.mem_singleton, List.not_mem_nil, or_false] at h
      rcases h with rfl | rfl
      · exact Or.inr ⟨c, hopen, hcb, rfl, Or.inl rfl⟩
      · exact Or.inr ⟨c, hopen, hcb, rfl, Or.inr (Or.inl rfl)⟩
  split; · exact hpre3
  have hpre4 : ∀ ev ∈ [Event.removeAll b.Dir] ++
      [Event.log (" ".intercalate ["git", "clone", "-b", b.Branch, b.Repo, b.Dir]),
        Event.exec ["git", "clone", "-b", b.Branch, b.Repo, b.Dir]] ++ [Event.chdir b.Dir] ++
      (cloneAndBuild d cfg env b).2.2 ++ [Event.openFile (cloneAndBuild d cfg env b).2.1.Name] ++
      [Event.hashWrite c, Event.seek 0 0] ++
      (upload d cfg env (cloneAndBuild d cfg env b).2.1 ⟨c, 0⟩).2.2,
      ev.isSetup = true ∨ ∃ c', env.openFile = .ok c' ∧ (cloneAndBuild d cfg env b).1 = .nil ∧
        (cloneAndBuild d cfg env b).2.1 = (cloneAndBuild d cfg env b).2.1 ∧
        ev.afterOpen d cfg env (cloneAndBuild d cfg env b).2.1 c' := by
    intro ev hev
    rcases List.mem_append.1 hev with h | h
    · exact hpre3 ev h
    · exact Or.inr ⟨c, hopen, hcb, rfl, Or.inr (Or.inr (Or.inl h))⟩
  split; · exact hpre4
  · exact hpre4
  · exact hpre4
  have hpre5 : ∀ ev ∈ [Event.removeAll b.Dir] ++
      [Event.log (" ".intercalate ["git", "clone", "-b", b.Branch, b.Repo, b.Dir]),
        Event.exec ["git", "clone", "-b", b.Branch, b.Repo, b.Dir]] ++ [Event.chdir b.Dir] ++
      (cloneAndBuild d cfg env b).2.2 ++ [Event.openFile (cloneAndBuild d cfg env b).2.1.Name] ++
      [Event.hashWrite c, Event.seek 0 0] ++
      (upload d cfg env (cloneAndBuild d cfg env b).2.1 ⟨c, 0⟩).2.2 ++
      (register d cfg env (cloneAndBuild d cfg env b).2.1 (d.sha256 c)).2,
      ev.isSetup = true ∨ ∃ c', env.openFile = .ok c' ∧ (cloneAndBuild d cfg env b).1 = .nil ∧
        (cloneAndBuild d cfg env b).2.1 = (cloneAndBuild d cfg env b).2.1 ∧
        ev.afterOpen d cfg env (cloneAndBuild d cfg env b).2.1 c' := by
    intro ev hev
    rcases List.mem_append.1 hev with h | h
    · exact hpre4 ev h
    · exact Or.inr ⟨c, hopen, hcb, rfl, Or.inr (Or.inr (Or.inr (Or.inl h)))⟩
  split; · exact hpre5
  · exact hpre5
  · exact hpre5
  have hpre6 : ∀ ev ∈ [Event.removeAll b.Dir] ++
      [Event.log (" ".intercalate ["git", "clone", "-b", b.Branch, b.Repo, b.Dir]),
        Event.exec ["git", "clone", "-b", b.Branch, b.Repo, b.Dir]] ++ [Event.chdir b.Dir] ++
      (cloneAndBuild d cfg env b).2.2 ++ [Event.openFile (cloneAndBuild d cfg env b).2.1.Name] ++
      [Event.hashWrite c, Event.seek 0 0] ++
      (upload d cfg env (cloneAndBuild d cfg env b).2.1 ⟨c, 0⟩).2.2 ++
      (register d cfg env (cloneAndBuild d cfg env b).2.1 (d.sha256 c)).2 ++
      (setCurVersion d cfg env (cloneAndBuild d cfg env b).2.1).2,
      ev.isSetup = true ∨ ∃ c', env.openFile = .ok c' ∧ (cloneAndBuild d cfg env b).1 = .nil ∧
        (cloneAndBuild d cfg env b).2.1 = (cloneAndBuild d cfg env b).2.1 ∧
        ev.afterOpen d cfg env (cloneAndBuild d cfg env b).2.1 c' := by
    intro ev hev
    rcases List.mem_append.1 hev with h | h
    · exact hpre5 ev h
    · exact Or.inr ⟨c, hopen, hcb, rfl, Or.inr (Or.inr (Or.inr (Or.inr h)))⟩
  split; · exact hpre6
  · exact hpre6
  · exact hpre6
  have hpre7 : ∀ ev ∈ [Event.removeAll b.Dir] ++
      [Event.log (" ".intercalate ["git", "clone", "-b", b.Branch, b.Repo, b.Dir]),
        Event.exec ["git", "clone", "-b", b.Branch, b.Repo, b.Dir]] ++ [Event.chdir b.Dir] ++
      (cloneAndBuild d cfg env b).2.2 ++ [Event.openFile (cloneAndBuild d cfg env b).2.1.Name] ++
      [Event.hashWrite c, Event.seek 0 0] ++
      (upload d cfg env (cloneAndBuild d cfg env b).2.1 ⟨c, 0⟩).2.2 ++
      (register d cfg env (cloneAndBuild d cfg env b).2.1 (d.sha256 c)).2 ++
      (setCurVersion d cfg env (cloneAndBuild d cfg env b).2.1).2 ++ [Event.chdir ".."],
      ev.isSetup = true ∨ ∃ c', env.openFile = .ok c' ∧ (cloneAndBuild d cfg env b).1 = .nil ∧
        (cloneAndBuild d cfg env b).2.1 = (cloneAndBuild d cfg env b).2.1 ∧
        ev.afterOpen d cfg env (cloneAndBuild d cfg env b).2.1 c' := by
    intro ev hev
    rcases List.mem_append.1 hev with h | h
    · exact hpre6 ev h
    · simp only [List.mem_singleton] at h
      subst h
      exact Or.inl rfl
  split; · exact hpre7
  exact hpre7

/-- When `cloneAndBuild` does not return nil, `Run` stops there at the
latest: it does not return nil, the receiver is as before, and it issued
only its first four events and those of `cloneAndBuild`. -/
theorem Run_stops_of_cloneAndBuild_ne_nil (d : Deps) (cfg : Config) (env : Env) (b : Build)
    (cwd : Path) (h : (cloneAndBuild d cfg env b).1 ≠ .nil) :
    (Run d cfg env b cwd).out ≠ .nil ∧ (Run d cfg env b cwd).b = b ∧
    (∀ code, (Run d cfg env b cwd).out ≠ .exit code) ∧
    ((∃ e, (cloneAndBuild d cfg env b).1 = .error e) → (Run d cfg env b cwd).out.isError = true) ∧
    (env.removeAll = none → (∃ o, env.gitClone = .ok o) → env.chdirDir = none →
      (Run d cfg env b cwd).out = (cloneAndBuild d cfg env b).1 ∧
      (Run d cfg env b cwd).cwd = chdirTo cwd b.Dir) ∧
    ∀ ev ∈ (Run d cfg env b cwd).events,
      (ev = .removeAll b.Dir ∨
       ev = .log (" ".intercalate ["git", "clone", "-b", b.Branch, b.Repo, b.Dir]) ∨
       ev = .exec ["git", "clone", "-b", b.Branch, b.Repo, b.Dir] ∨ ev = .chdir b.Dir) ∨
      ev ∈ (cloneAndBuild d cfg env b).2.2 := by
  have hb := cloneAndBuild_build_unchanged d cfg env b h
  have hx := cloneAndBuild_ne_exit d cfg env b
  unfold Run
  simp only [cmd]
  split
  · rename_i e he
    simp [Outcome.isError, he]
  rename_i hrm
  split
  · rename_i e he
    simp [Outcome.isError, he]
  rename_i o hcl
  split
  · rename_i e he
    simp [Outcome.isError, he]
  rename_i hcd
  split
  · rename_i e he
    simp [Outcome.isError, hb, hrm, hcd, he]
    tauto
  · rename_i e he
    simp [Outcome.isError, hb, hrm, hcd, he]
    tauto
  · rename_i e he
    exact absurd he (hx _)
  · rename_i he
    exact absurd he h

/-! ## Version resolution and the idempotency lookup -/

/-- On an empty trimmed tag `cloneAndBuild` indexes out of range. -/
theorem cloneAndBuild_empty_tag (d : Deps) (cfg : Config) (env : Env) (b : Build)
    (out : String) (hdesc : env.gitDescribe = .ok out) (htag : (trimSpace out).data = []) :
    cloneAndBuild d cfg env b =
      (.panic "runtime error: index out of range", b,
        [Event.log "git describe", Event.exec ["git", "describe"]]) := by
  unfold cloneAndBuild
  simp only [cmd, hdesc, htag, intercalate_git_describe]

/-- A non-empty tag without the marker, or with a bad rune after it, is
rejected before the registry lookup. -/
theorem cloneAndBuild_bad_tag (d : Deps) (cfg : Config) (env : Env) (b : Build)
    (out : String) (c : Char) (rest : List Char)
    (hdesc : env.gitDescribe = .ok out) (htag : (trimSpace out).data = c :: rest)
    (hbad : c ≠ 'v' ∨ ∃ r ∈ rest, d.badVersionRune r = true) :
    cloneAndBuild d cfg env b =
      (.error (errorfStr "bad tag name: " (trimSpace out)), b,
        [Event.log "git describe", Event.exec ["git", "describe"]]) := by
  unfold cloneAndBuild
  simp only [cmd, hdesc, htag, intercalate_git_describe]
  by_cases hc : c = 'v'
  · have hr : ∃ r ∈ rest, d.badVersionRune r = true := by
      rcases hbad with h | h
      · exact absurd hc h
      · exact h
    have hi : 0 ≤ indexFunc (String.mk rest) d.badVersionRune :=
      (indexFunc_nonneg_iff _ _).2 hr
    simp [hc, hi]
  · simp [hc]

/-- With a bad non-empty tag, `Run` returns an error, leaves the receiver as
it was and performs no lookup, build or publish step. -/
theorem Run_bad_tag (d : Deps) (cfg : Config) (env : Env) (b : Build) (cwd : Path)
    (out : String) (c : Char) (rest : List Char)
    (hdesc : env.gitDescribe = .ok out) (htag : (trimSpace out).data = c :: rest)
    (hbad : c ≠ 'v' ∨ ∃ r ∈ rest, d.badVersionRune r = true) :
    (Run d cfg env b cwd).out.isError = true ∧ (Run d cfg env b cwd).b = b ∧
    ∀ ev ∈ (Run d cfg env b cwd).events,
      ev.isRemoteOrBuild = false ∧ ev.isBuildOrPublish = false := by
  have hcb := cloneAndBuild_bad_tag d cfg env b out c rest hdesc htag hbad
  have hne : (cloneAndBuild d cfg env b).1 ≠ .nil := by rw [hcb]; simp
  obtain ⟨_, hb, _, herr, _, hev⟩ := Run_stops_of_cloneAndBuild_ne_nil d cfg env b cwd hne
  refine ⟨herr ⟨_, by rw [hcb]⟩, hb, ?_⟩
  intro ev h
  rcases hev ev h with (rfl | rfl | rfl | rfl) | h'
  · exact ⟨rfl, rfl⟩
  · exact ⟨rfl, rfl⟩
  · exact ⟨rfl, rfl⟩
  · exact ⟨rfl, rfl⟩
  · rw [hcb] at h'
    simp only [List.mem_cons, List.mem_singleton, List.not_mem_nil, or_false] at h'
    rcases h' with rfl | rfl
    · exact ⟨rfl, rfl⟩
    · exact ⟨rfl, rfl⟩

/-- With a valid tag and a release record found at the looked-up path,
`cloneAndBuild` returns "already built" right after the lookup. -/
theorem cloneAndBuild_found (d : Deps) (cfg : Config) (env : Env) (b : Build)
    (out : String) (rest : List Char) (record : Bytes)
    (hdesc : env.gitDescribe = .ok out) (htag : (trimSpace out).data = 'v' :: rest)
    (hvalid : ∀ r ∈ rest, d.badVersionRune r = false)
    (hfound : env.fetchBytes (releaseURL cfg b (String.mk rest)) = .ok record) :
    cloneAndBuild d cfg env b =
      (.error (errorfStr "already built: " (String.mk rest)), b,
        [Event.log "git describe", Event.exec ["git", "describe"],
         Event.fetchBytes (releaseURL cfg b (String.mk rest))]) := by
  have hi : ¬ 0 ≤ indexFunc (String.mk rest) d.badVersionRune := by
    intro h0
    obtain ⟨r, hr, hbad⟩ := (indexFunc_nonneg_iff _ _).1 h0
    rw [hvalid r hr] at hbad
    exact Bool.false_ne_true hbad
  unfold releaseURL at hfound
  unfold cloneAndBuild
  simp only [cmd, hdesc, htag, intercalate_git_describe, hi, hfound, releaseURL]
  simp

/-- With a valid tag and a failed lookup, `cloneAndBuild` goes on to write
`relver.go` and to build. -/
theorem cloneAndBuild_not_found (d : Deps) (cfg : Config) (env : Env) (b : Build)
    (out : String) (rest : List Char) (e : GoError)
    (hdesc : env.gitDescribe = .ok out) (htag : (trimSpace out).data = 'v' :: rest)
    (hvalid : ∀ r ∈ rest, d.badVersionRune r = false)
    (hfetch : env.fetchBytes (releaseURL cfg b (String.mk rest)) = .error e) :
    Event.create "relver.go" ∈ (cloneAndBuild d cfg env b).2.2 ∧
    (env.createRelver = none →
      Event.write "relver.go" (relverGo d (String.mk rest)) ∈ (cloneAndBuild d cfg env b).2.2) ∧
    (env.createRelver = none → env.writeRelver = none →
      Event.goBuild ["GOOS=" ++ b.OS, "GOARCH=" ++ b.Arch]
        ["go", "build", "-tags", "release", "-o", b.Name] ∈ (cloneAndBuild d cfg env b).2.2 ∧
      (env.goBuild = none →
        (cloneAndBuild d cfg env b).1 = .nil ∧
        (cloneAndBuild d cfg env b).2.1 = { b with ver := String.mk rest })) := by
  have hi : ¬ 0 ≤ indexFunc (String.mk rest) d.badVersionRune := by
    intro h0
    obtain ⟨r, hr, hbad⟩ := (indexFunc_nonneg_iff _ _).1 h0
    rw [hvalid r hr] at hbad
    exact Bool.false_ne_true hbad
  unfold releaseURL at hfetch
  unfold cloneAndBuild
  simp only [cmd, hdesc, htag, intercalate_git_describe, hi, hfetch]
  rcases hc : env.createRelver with _ | e1
  · rcases hw : env.writeRelver with _ | e2
    · rcases hg : env.goBuild with _ | e3 <;> simp
    · simp
  · simp

theorem registryAfter_isSome (evs : List Event) (reg : Registry) (url : String)
    (h : (reg url).isSome = true ∨ ∃ p, Event.httpPut url p ∈ evs) :
    (registryAfter reg evs url).isSome = true := by
  induction evs generalizing reg with
  | nil =>
    rcases h with h | ⟨p, hp⟩
    · exact h
    · simp at hp
  | cons ev evs ih =>
    unfold registryAfter
    simp only [List.foldl_cons]
    apply ih
    rcases h with h | ⟨p, hp⟩
    · left
      cases ev <;> simp only [] <;> try exact h
      rename_i u q
      unfold Registry.put
      by_cases hu : url = u
      · simp [hu]
      · simp [hu, h]
    · rcases List.mem_cons.1 hp with rfl | hp
      · left
        simp [Registry.put]
      · right
        exact ⟨p, hp⟩

/-- With a valid tag, the events of `cloneAndBuild` start with the lookup at
the release path, and no other lookup follows. -/
theorem cloneAndBuild_valid_tag_events (d : Deps) (cfg : Config) (env : Env) (b : Build)
    (out : String) (rest : List Char)
    (hdesc : env.gitDescribe = .ok out) (htag : (trimSpace out).data = 'v' :: rest)
    (hvalid : ∀ r ∈ rest, d.badVersionRune r = false) :
    ∃ tail, (cloneAndBuild d cfg env b).2.2 =
        [Event.log "git describe", Event.exec ["git", "describe"],
         Event.fetchBytes (releaseURL cfg b (String.mk rest))] ++ tail ∧
      ∀ url, Event.fetchBytes url ∉ tail := by
  have hi : ¬ 0 ≤ indexFunc (String.mk rest) d.badVersionRune := by
    intro h0
    obtain ⟨r, hr, hbad⟩ := (indexFunc_nonneg_iff _ _).1 h0
    rw [hvalid r hr] at hbad
    exact Bool.false_ne_true hbad
  unfold cloneAndBuild
  simp only [cmd, hdesc, htag, intercalate_git_describe, hi, releaseURL]
  rcases hf : env.fetchBytes
      (cfg.distURL ++ b.Name ++ "-" ++ String.mk rest ++ "-" ++ b.OS ++ "-" ++ b.Arch ++ ".json")
    with e | record
  · rcases hc : env.createRelver with _ | e1
    · rcases hw : env.writeRelver with _ | e2
      · rcases hg : env.goBuild with _ | e3 <;> simp
      · simp
    · simp
  · simp

/-- With a valid tag and a release record found at the looked-up path, `Run`
ends with the "already built" error at the latest, and neither builds nor
publishes. -/
theorem Run_found (d : Deps) (cfg : Config) (env : Env) (b : Build) (cwd : Path)
    (out : String) (rest : List Char) (record : Bytes)
    (hdesc : env.gitDescribe = .ok out) (htag : (trimSpace out).data = 'v' :: rest)
    (hvalid : ∀ r ∈ rest, d.badVersionRune r = false)
    (hfound : env.fetchBytes (releaseURL cfg b (String.mk rest)) = .ok record) :
    (Run d cfg env b cwd).out.isError = true ∧ (Run d cfg env b cwd).b = b ∧
    (∀ ev ∈ (Run d cfg env b cwd).events, ev.isBuildOrPublish = false) ∧
    publishOps (Run d cfg env b cwd).events = [] ∧
    (env.removeAll = none → (∃ o, env.gitClone = .ok o) → env.chdirDir = none →
      (Run d cfg env b cwd).out = .error (errorfStr "already built: " (String.mk rest))) := by
  have hcb := cloneAndBuild_found d cfg env b out rest record hdesc htag hvalid hfound
  have hne : (cloneAndBuild d cfg env b).1 ≠ .nil := by rw [hcb]; simp
  obtain ⟨_, hb, _, herr, hout, hev⟩ := Run_stops_of_cloneAndBuild_ne_nil d cfg env b cwd hne
  have hall : ∀ ev ∈ (Run d cfg env b cwd).events, ev.isBuildOrPublish = false := by
    intro ev h
    rcases hev ev h with (rfl | rfl | rfl | rfl) | h'
    · rfl
    · rfl
    · rfl
    · rfl
    · rw [hcb] at h'
      simp only [List.mem_cons, List.mem_singleton, List.not_mem_nil, or_false] at h'
      rcases h' with rfl | rfl | rfl <;> rfl
  refine ⟨herr ⟨_, by rw [hcb]⟩, hb, hall, ?_, ?_⟩
  · unfold publishOps
    rw [List.filterMap_eq_nil_iff]
    intro ev h
    have := hall ev h
    cases ev <;> simp_all [Event.isBuildOrPublish]
  · intro h1 h2 h3
    rw [(hout h1 h2 h3).1, hcb]

/-! ## Claims on version resolution and the idempotency lookup -/

/-- C1 (the code misses a case): when `git describe` succeeds with output that
trims to the empty text, `cloneAndBuild` does not return an error; indexing
`tag[0]` panics, and the panic ends `Run`. -/
theorem C1_empty_tag_panics :
    (cloneAndBuild sampleDeps sampleCfg (sampleEnvTag "\n") sampleBuild).1 =
      .panic "runtime error: index out of range" ∧
    (cloneAndBuild sampleDeps sampleCfg (sampleEnvTag "\n") sampleBuild).1.isError = false ∧
    (Run sampleDeps sampleCfg (sampleEnvTag "\n") sampleBuild ["home"]).out =
      .panic "runtime error: index out of range" := by
  decide

/-- C2: for a valid version `ver` (tag `v` followed by `ver`), the only path
`cloneAndBuild` looks up is `distURL + Name-ver-OS-Arch.json`, and it is the
path every `PUT` of `register` goes to after `cloneAndBuild` succeeded; when
the lookup succeeds `cloneAndBuild` returns "already built: ver" without
building and leaves the receiver as it was, and `Run` issues no upload,
register or setCurVersion; hence, over a registry that is a map from path to
record, a second `Run` for the same tag and platform after a successful
first `Run` stops at the lookup. -/
theorem C2_lookup_path_and_already_built (d : Deps) (cfg : Config) (b : Build)
    (out : String) (rest : List Char)
    (htag : (trimSpace out).data = 'v' :: rest)
    (hvalid : ∀ r ∈ rest, d.badVersionRune r = false) :
    (∀ env, env.gitDescribe = .ok out →
      Event.fetchBytes (releaseURL cfg b (String.mk rest)) ∈ (cloneAndBuild d cfg env b).2.2 ∧
      (∀ url, Event.fetchBytes url ∈ (cloneAndBuild d cfg env b).2.2 →
        url = cfg.distURL ++ b.Name ++ "-" ++ String.mk rest ++ "-" ++ b.OS ++ "-" ++ b.Arch ++
          ".json") ∧
      ((cloneAndBuild d cfg env b).1 = .nil →
        (cloneAndBuild d cfg env b).2.1.ver = String.mk rest ∧
        ∀ env' sha url p,
          Event.httpPut url p ∈ (register d cfg env' (cloneAndBuild d cfg env b).2.1 sha).2 →
          url = releaseURL cfg b (String.mk rest))) ∧
    (∀ env cwd record, env.gitDescribe = .ok out →
      env.fetchBytes (releaseURL cfg b (String.mk rest)) = .ok record →
      cloneAndBuild d cfg env b =
        (.error (errorfStr "already built: " (String.mk rest)), b,
          [Event.log "git describe", Event.exec ["git", "describe"],
           Event.fetchBytes (releaseURL cfg b (String.mk rest))]) ∧
      (Run d cfg env b cwd).out.isError = true ∧ (Run d cfg env b cwd).b = b ∧
      (∀ ev ∈ (Run d cfg env b cwd).events, ev.isBuildOrPublish = false) ∧
      publishOps (Run d cfg env b cwd).events = [] ∧
      (env.removeAll = none → (∃ o, env.gitClone = .ok o) → env.chdirDir = none →
        (Run d cfg env b cwd).out = .error (errorfStr "already built: " (String.mk rest)))) ∧
    (∀ reg env1 env2 cwd1 cwd2, env1.gitDescribe = .ok out → env2.gitDescribe = .ok out →
      (Run d cfg env1 b cwd1).out = .nil →
      env2.fetchBytes = registryFetch (registryAfter reg (Run d cfg env1 b cwd1).events) →
      (Run d cfg env2 b cwd2).out.isError = true ∧ (Run d cfg env2 b cwd2).b = b ∧
      (∀ ev ∈ (Run d cfg env2 b cwd2).events, ev.isBuildOrPublish = false) ∧
      publishOps (Run d cfg env2 b cwd2).events = [] ∧
      (env2.removeAll = none → (∃ o, env2.gitClone = .ok o) → env2.chdirDir = none →
        (Run d cfg env2 b cwd2).out =
          .error (errorfStr "already built: " (String.mk rest)))) := by
  refine ⟨?_, ?_, ?_⟩
  · intro env hdesc
    obtain ⟨tail, hev, htail⟩ :=
      cloneAndBuild_valid_tag_events d cfg env b out rest hdesc htag hvalid
    refine ⟨?_, ?_, ?_⟩
    · rw [hev]; simp
    · intro url hurl
      rw [hev] at hurl
      simp only [List.mem_append, List.mem_cons, List.mem_singleton, List.not_mem_nil,
        or_false] at hurl
      rcases hurl with (h | h | h) | h
      · cases h
      · cases h
      · injection h
      · exact absurd h (htail url)
    · intro hnil
      obtain ⟨out', rest', hd', ht', _, _, _, _, _, hb1, _⟩ :=
        cloneAndBuild_nil_inv d cfg env b hnil
      rw [hdesc] at hd'
      injection hd' with hd'
      subst hd'
      rw [htag] at ht'
      injection ht' with _ ht'
      subst ht'
      refine ⟨by rw [hb1], ?_⟩
      intro env' sha url p hput
      rcases register_events d cfg env' _ sha _ hput with h | h
      · cases h
      · injection h with h1 _
        rw [h1, hb1]
        rfl
  · intro env cwd record hdesc hfound
    exact ⟨cloneAndBuild_found d cfg env b out rest record hdesc htag hvalid hfound,
      Run_found d cfg env b cwd out rest record hdesc htag hvalid hfound⟩
  · intro reg env1 env2 cwd1 cwd2 hd1 hd2 hnil hfetch
    obtain ⟨_, _, _, hcb, c, _, _, _, _, hreg, _, _, _, _, hevs⟩ :=
      Run_nil_inv d cfg env1 b cwd1 hnil
    obtain ⟨out', rest', hd', ht', _, _, _, _, _, hb1, _⟩ :=
      cloneAndBuild_nil_inv d cfg env1 b hcb
    rw [hd1] at hd'
    injection hd' with hd'
    subst hd'
    rw [htag] at ht'
    injection ht' with _ ht'
    subst ht'
    have hreg' : (register d cfg env1 (cloneAndBuild d cfg env1 b).2.1 (d.sha256 c)).1 = .nil := by
      rw [register_out]; exact hreg
    have hput : Event.httpPut (releaseURL cfg b (String.mk rest)) (.sha256 (d.sha256 c)) ∈
        (Run d cfg env1 b cwd1).events := by
      rw [hevs, (register_nil_inv d cfg env1 _ _ hreg').2, hb1]
      simp [releaseURL]
    have hsome := registryAfter_isSome (Run d cfg env1 b cwd1).events reg
      (releaseURL cfg b (String.mk rest)) (Or.inr ⟨_, hput⟩)
    obtain ⟨p, hp⟩ := Option.isSome_iff_exists.1 hsome
    have hfound : env2.fetchBytes (releaseURL cfg b (String.mk rest)) = .ok p.bytes := by
      rw [hfetch]
      unfold registryFetch
      rw [hp]
    exact Run_found d cfg env2 b cwd2 out rest p.bytes hd2 htag hvalid hfound

/-- C2 at a sample input: tag `v1.2.3`, platform `linux-amd64`; the second run
is answered from the registry the first run left behind. -/
theorem C2_lookup_path_and_already_built_witness :
    (Run sampleDeps sampleCfg (sampleEnvOn emptyRegistry) sampleBuild ["home"]).out = .nil ∧
    (Run sampleDeps sampleCfg
      (sampleEnvOn (registryAfter emptyRegistry
        (Run sampleDeps sampleCfg (sampleEnvOn emptyRegistry) sampleBuild ["home"]).events))
      sampleBuild ["home"]).out = .error (errorfStr "already built: " "1.2.3") ∧
    publishOps (Run sampleDeps sampleCfg
      (sampleEnvOn (registryAfter emptyRegistry
        (Run sampleDeps sampleCfg (sampleEnvOn emptyRegistry) sampleBuild ["home"]).events))
      sampleBuild ["home"]).events = [] := by
  have h := (C2_lookup_path_and_already_built sampleDeps sampleCfg sampleBuild "v1.2.3\n"
    ['1', '.', '2', '.', '3'] (by decide) (by decide)).2.2 emptyRegistry
    (sampleEnvOn emptyRegistry)
    (sampleEnvOn (registryAfter emptyRegistry
      (Run sampleDeps sampleCfg (sampleEnvOn emptyRegistry) sampleBuild ["home"]).events))
    ["home"] ["home"] rfl rfl (by decide) rfl
  exact ⟨by decide, h.2.2.2.2 rfl ⟨"", rfl⟩ rfl, h.2.2.2.1⟩

/-- C3 (counterexample): the registry lookup fails with a network error, not
with "not found", and `cloneAndBuild` still writes `relver.go`, runs the build
and returns nil. -/
theorem C3_counterexample_network_error :
    sampleEnvNetworkError.fetchBytes (releaseURL sampleCfg sampleBuild "1.2.3") =
      .error ⟨"*net.OpError", "dial tcp: connection refused"⟩ ∧
    (cloneAndBuild sampleDeps sampleCfg sampleEnvNetworkError sampleBuild).1 = .nil ∧
    Event.write "relver.go" (relverGo sampleDeps "1.2.3") ∈
      (cloneAndBuild sampleDeps sampleCfg sampleEnvNetworkError sampleBuild).2.2 ∧
    Event.goBuild ["GOOS=linux", "GOARCH=amd64"] ["go", "build", "-tags", "release", "-o", "widget"] ∈
      (cloneAndBuild sampleDeps sampleCfg sampleEnvNetworkError sampleBuild).2.2 :=
  ⟨rfl, by decide, by decide, by decide⟩

/-- C3 (amended): for a valid tag, every error outcome of the idempotency
lookup, "not found" or any other, lets `cloneAndBuild` continue: it creates
`relver.go`, writes it when the creation succeeded, runs the build when the
write succeeded, and returns nil with the version set when the build
succeeded.  Only a lookup without error stops it, with "already built". -/
theorem C3_any_lookup_error_continues (d : Deps) (cfg : Config) (env : Env) (b : Build)
    (out : String) (rest : List Char)
    (hdesc : env.gitDescribe = .ok out) (htag : (trimSpace out).data = 'v' :: rest)
    (hvalid : ∀ r ∈ rest, d.badVersionRune r = false) :
    (∀ e, env.fetchBytes (releaseURL cfg b (String.mk rest)) = .error e →
      Event.create "relver.go" ∈ (cloneAndBuild d cfg env b).2.2 ∧
      (env.createRelver = none →
        Event.write "relver.go" (relverGo d (String.mk rest)) ∈
          (cloneAndBuild d cfg env b).2.2) ∧
      (env.createRelver = none → env.writeRelver = none →
        Event.goBuild ["GOOS=" ++ b.OS, "GOARCH=" ++ b.Arch]
          ["go", "build", "-tags", "release", "-o", b.Name] ∈ (cloneAndBuild d cfg env b).2.2 ∧
        (env.goBuild = none →
          (cloneAndBuild d cfg env b).1 = .nil ∧
          (cloneAndBuild d cfg env b).2.1 = { b with ver := String.mk rest }))) ∧
    (∀ record, env.fetchBytes (releaseURL cfg b (String.mk rest)) = .ok record →
      (cloneAndBuild d cfg env b).1 = .error (errorfStr "already built: " (String.mk rest)) ∧
      ∀ ev ∈ (cloneAndBuild d cfg env b).2.2, ev.isBuildOrPublish = false) := by
  constructor
  · intro e hfetch
    exact cloneAndBuild_not_found d cfg env b out rest e hdesc htag hvalid hfetch
  · intro record hfound
    have hcb := cloneAndBuild_found d cfg env b out rest record hdesc htag hvalid hfound
    rw [hcb]
    refine ⟨rfl, ?_⟩
    intro ev hev
    simp only [List.mem_cons, List.mem_singleton, List.not_mem_nil, or_false] at hev
    rcases hev with rfl | rfl | rfl <;> rfl

/-- C3 (amended) at the sample run with a network error on the lookup. -/
theorem C3_any_lookup_error_continues_witness :
    (cloneAndBuild sampleDeps sampleCfg sampleEnvNetworkError sampleBuild).1 = .nil ∧
    (cloneAndBuild sampleDeps sampleCfg sampleEnvNetworkError sampleBuild).2.1.ver = "1.2.3" := by
  have h := ((C3_any_lookup_error_continues sampleDeps sampleCfg sampleEnvNetworkError
    sampleBuild "v1.2.3\n" ['1', '.', '2', '.', '3'] rfl (by decide) (by decide)).1
    ⟨"*net.OpError", "dial tcp: connection refused"⟩ rfl).2.2 rfl rfl
  exact ⟨(h.2 rfl).1, by rw [(h.2 rfl).2]⟩

/-! ## Claims on the registry calls -/

/-- C7: once the request is built (encoding and `http.NewRequest` succeeded,
`getCreds` returned) and the transport returned a response, `register` returns
nil exactly when the status code is 201 and `setCurVersion` returns nil
exactly when it is 200; for every other status code each returns the
"http status" error. -/
theorem C7_status_codes (d : Deps) (cfg : Config) (env : Env) (b : Build) (sha : Bytes) :
    (∀ resp, env.regEncode = none → env.regNewRequest = none →
      getCreds env (releaseURL cfg b b.ver) ≠ none → env.regDo = .ok resp →
      ((register d cfg env b sha).1 = .nil ↔ resp.StatusCode = 201) ∧
      (resp.StatusCode ≠ 201 →
        (register d cfg env b sha).1 =
          .error (statusError d resp (releaseURL cfg b b.ver)))) ∧
    (∀ resp, env.curEncode = none → env.curNewRequest = none →
      getCreds env (cfg.distURL ++ b.Name ++ "-" ++ b.Platform ++ ".json") ≠ none →
      env.curDo = .ok resp →
      ((setCurVersion d cfg env b).1 = .nil ↔ resp.StatusCode = 200) ∧
      (resp.StatusCode ≠ 200 →
        (setCurVersion d cfg env b).1 =
          .error (statusError d resp (cfg.distURL ++ b.Name ++ "-" ++ b.Platform ++ ".json")))) := by
  constructor
  · intro resp h1 h2 h3 h4
    obtain ⟨creds, hc⟩ := Option.ne_none_iff_exists'.1 h3
    unfold releaseURL at hc
    unfold register
    simp only [h1, h2, hc, h4, releaseURL]
    by_cases hs : resp.StatusCode = 201
    · simp [hs]
    · simp [hs]
  · intro resp h1 h2 h3 h4
    obtain ⟨creds, hc⟩ := Option.ne_none_iff_exists'.1 h3
    unfold setCurVersion
    simp only [h1, h2, hc, h4]
    by_cases hs : resp.StatusCode = 200
    · simp [hs]
    · simp [hs]

/-- C7 at sample answers: `200 OK` to `register` and `201 Created` to
`setCurVersion` are errors, although both are 2xx codes. -/
theorem C7_status_codes_witness :
    (register sampleDeps sampleCfg
      (sampleEnvAnswers ⟨200, "200 OK", ""⟩ ⟨201, "201 Created", ""⟩) sampleBuild [1]).1.isError
      = true ∧
    (setCurVersion sampleDeps sampleCfg
      (sampleEnvAnswers ⟨200, "200 OK", ""⟩ ⟨201, "201 Created", ""⟩) sampleBuild).1.isError
      = true := by
  have h := C7_status_codes sampleDeps sampleCfg
    (sampleEnvAnswers ⟨200, "200 OK", ""⟩ ⟨201, "201 Created", ""⟩) sampleBuild [1]
  have h1 := (h.1 ⟨200, "200 OK", ""⟩ rfl rfl (by decide) rfl).2 (by decide)
  have h2 := (h.2 ⟨201, "201 Created", ""⟩ rfl rfl (by decide) rfl).2 (by decide)
  rw [h1, h2]
  exact ⟨rfl, rfl⟩

/-! ## Claims on the publish steps -/

/-- C4: in every run the publish methods called form a prefix of upload,
register, setCurVersion; register is called only when upload returned nil and
setCurVersion only when register returned nil; and when a called step returns
an error, `Run` returns the error "upload failure: ", "registration failure: "
or "release failure: " followed by the cause, having called no later step. -/
theorem C4_publish_steps_in_order (d : Deps) (cfg : Config) (env : Env) (b : Build) (cwd : Path) :
    publishOps (Run d cfg env b cwd).events <+: [.upload, .register, .setCurVersion] ∧
    (PublishOp.register ∈ publishOps (Run d cfg env b cwd).events →
      ∀ f, (upload d cfg env (Run d cfg env b cwd).b f).1 = .nil) ∧
    (PublishOp.setCurVersion ∈ publishOps (Run d cfg env b cwd).events →
      ∀ sha, (register d cfg env (Run d cfg env b cwd).b sha).1 = .nil) ∧
    (PublishOp.upload ∈ publishOps (Run d cfg env b cwd).events →
      ∀ f e, (upload d cfg env (Run d cfg env b cwd).b f).1 = .error e →
        (Run d cfg env b cwd).out = .error (errorfErr "upload failure: " e) ∧
        publishOps (Run d cfg env b cwd).events = [.upload]) ∧
    (PublishOp.register ∈ publishOps (Run d cfg env b cwd).events →
      ∀ sha e, (register d cfg env (Run d cfg env b cwd).b sha).1 = .error e →
        (Run d cfg env b cwd).out = .error (errorfErr "registration failure: " e) ∧
        publishOps (Run d cfg env b cwd).events = [.upload, .register]) ∧
    (PublishOp.setCurVersion ∈ publishOps (Run d cfg env b cwd).events →
      ∀ e, (setCurVersion d cfg env (Run d cfg env b cwd).b).1 = .error e →
        (Run d cfg env b cwd).out = .error (errorfErr "release failure: " e) ∧
        publishOps (Run d cfg env b cwd).events = [.upload, .register, .setCurVersion]) := by
  simp only [upload_out, register_out]
  unfold Run
  simp only [upload_out, register_out]
  split; · simp [publishOps_nil, publishOps_cons]
  split; · simp [publishOps_nil, publishOps_cons, cmd]
  split; · simp [publishOps_nil, publishOps_cons, cmd]
  split; · simp [publishOps_nil, publishOps_cons, cmd, publishOps_append, publishOps_cloneAndBuild]
  · simp [publishOps_nil, publishOps_cons, cmd, publishOps_append, publishOps_cloneAndBuild]
  · simp [publishOps_nil, publishOps_cons, cmd, publishOps_append, publishOps_cloneAndBuild]
  split; · simp [publishOps_nil, publishOps_cons, cmd, publishOps_append, publishOps_cloneAndBuild]
  split; · simp [publishOps_nil, publishOps_cons, cmd, publishOps_append, publishOps_cloneAndBuild]
  split; · simp [publishOps_nil, publishOps_cons, cmd, publishOps_append, publishOps_cloneAndBuild]
  split
  · rename_i e he
    simp [publishOps_nil, publishOps_cons, cmd, publishOps_append, publishOps_cloneAndBuild,
      publishOps_upload, he]
  · rename_i he; exact absurd he (uploadOut_ne_panic _ _)
  · rename_i he; exact absurd he (uploadOut_ne_exit _ _)
  rename_i hup
  split
  · rename_i e he
    simp [publishOps_nil, publishOps_cons, cmd, publishOps_append, publishOps_cloneAndBuild,
      publishOps_upload, publishOps_register, he, hup]
  · rename_i he; exact absurd he (registerOut_ne_panic _ _ _ _ _)
  · rename_i he
    simp [publishOps_nil, publishOps_cons, cmd, publishOps_append, publishOps_cloneAndBuild,
      publishOps_upload, publishOps_register, he, hup]
  rename_i hreg
  split
  · rename_i e he
    simp [publishOps_nil, publishOps_cons, cmd, publishOps_append, publishOps_cloneAndBuild,
      publishOps_upload, publishOps_register, publishOps_setCurVersion, he, hup, hreg]
  · rename_i he; exact absurd he (setCurVersion_ne_panic _ _ _ _ _)
  · rename_i he
    simp [publishOps_nil, publishOps_cons, cmd, publishOps_append, publishOps_cloneAndBuild,
      publishOps_upload, publishOps_register, publishOps_setCurVersion, he, hup, hreg]
  rename_i hcur
  split <;>
    simp [publishOps_nil, publishOps_cons, cmd, publishOps_append, publishOps_cloneAndBuild,
      publishOps_upload, publishOps_register, publishOps_setCurVersion, hcur, hup, hreg]

/-- C4 at the sample run where the registry answers `409 Conflict` to
`register`: upload and register are called, setCurVersion is not. -/
theorem C4_publish_steps_in_order_witness :
    (Run sampleDeps sampleCfg sampleEnvConflict sampleBuild ["home"]).out =
      .error (errorfErr "registration failure: "
        (statusError sampleDeps ⟨409, "409 Conflict", "exists"⟩
          "https://dist.example/widget-1.2.3-linux-amd64.json")) ∧
    publishOps (Run sampleDeps sampleCfg sampleEnvConflict sampleBuild ["home"]).events =
      [.upload, .register] :=
  (C4_publish_steps_in_order sampleDeps sampleCfg sampleEnvConflict sampleBuild
    ["home"]).2.2.2.2.1 (by decide) [] _ (by decide)

/-! ## Claims on the digest and the uploaded bytes -/

theorem mem_upload_events_cases (d : Deps) (cfg : Config) (env : Env) (b : Build) (f : File)
    (ev : Event) (h : ev ∈ (upload d cfg env b f).2.2) :
    (∀ data, ev ≠ .hashWrite data) ∧ (∀ url p, ev ≠ .httpPut url p) ∧
    (∀ name data, ev = .gzWrite name data → name = b.Name ++ "-" ++ b.ver ∧ data = f.readAll.1) ∧
    (∀ url body, ev = .s3put url body →
      url = cfg.s3DistURL ++ (b.Name ++ "-" ++ b.ver ++ "-" ++ b.OS ++ "-" ++ b.Arch ++ ".gz") ∧
      body = d.gzip (b.Name ++ "-" ++ b.ver) f.readAll.1) := by
  rcases upload_events d cfg env b f ev h with rfl | rfl | rfl
  · simp
  · simp
  · simp

theorem mem_register_events_cases (d : Deps) (cfg : Config) (env : Env) (b : Build)
    (sha : Bytes) (ev : Event) (h : ev ∈ (register d cfg env b sha).2) :
    (∀ data, ev ≠ .hashWrite data) ∧ (∀ name data, ev ≠ .gzWrite name data) ∧
    (∀ url body, ev ≠ .s3put url body) ∧
    (∀ url dg, ev = .httpPut url (.sha256 dg) → url = releaseURL cfg b b.ver ∧ dg = sha) := by
  rcases register_events d cfg env b sha ev h with rfl | rfl
  · simp
  · simp

theorem mem_setCurVersion_events_cases (d : Deps) (cfg : Config) (env : Env) (b : Build)
    (ev : Event) (h : ev ∈ (setCurVersion d cfg env b).2) :
    (∀ data, ev ≠ .hashWrite data) ∧ (∀ name data, ev ≠ .gzWrite name data) ∧
    (∀ url body, ev ≠ .s3put url body) ∧ (∀ url dg, ev ≠ .httpPut url (.sha256 dg)) := by
  rcases setCurVersion_events d cfg env b ev h with rfl | rfl
  · simp
  · simp

/-- The hashing, compression and digest events of any run over a binary with
content `c` carry `c`, its name `Name-ver`, and the digest of `c`. -/
theorem Run_data_events (d : Deps) (cfg : Config) (env : Env) (b : Build) (cwd : Path)
    (c : Bytes) (hopen : env.openFile = .ok c) :
    (∀ data, Event.hashWrite data ∈ (Run d cfg env b cwd).events → data = c) ∧
    (∀ name data, Event.gzWrite name data ∈ (Run d cfg env b cwd).events →
      name = (Run d cfg env b cwd).b.Name ++ "-" ++ (Run d cfg env b cwd).b.ver ∧ data = c) ∧
    (∀ url body, Event.s3put url body ∈ (Run d cfg env b cwd).events →
      url = cfg.s3DistURL ++ ((Run d cfg env b cwd).b.Name ++ "-" ++ (Run d cfg env b cwd).b.ver ++
        "-" ++ (Run d cfg env b cwd).b.OS ++ "-" ++ (Run d cfg env b cwd).b.Arch ++ ".gz") ∧
      body = d.gzip ((Run d cfg env b cwd).b.Name ++ "-" ++ (Run d cfg env b cwd).b.ver) c) ∧
    (∀ url dg, Event.httpPut url (.sha256 dg) ∈ (Run d cfg env b cwd).events →
      url = releaseURL cfg (Run d cfg env b cwd).b (Run d cfg env b cwd).b.ver ∧
      dg = d.sha256 c) := by
  have hshape := Run_events_shape d cfg env b cwd
  have key : ∀ ev ∈ (Run d cfg env b cwd).events, ev.isSetup = true ∨
      ev.afterOpen d cfg env (Run d cfg env b cwd).b c := by
    intro ev hev
    rcases hshape ev hev with h | ⟨c', hc', _, _, h⟩
    · exact Or.inl h
    · rw [hopen] at hc'
      injection hc' with hc'
      subst hc'
      exact Or.inr h
  have hf : (File.readAll ⟨c, 0⟩).1 = c := by simp [readAll_fresh]
  refine ⟨?_, ?_, ?_, ?_⟩
  · intro data hev
    rcases key _ hev with h | h | h | h | h | h
    · simp [Event.isSetup] at h
    · injection h
    · cases h
    · exact absurd rfl ((mem_upload_events_cases d cfg env _ _ _ h).1 data)
    · exact absurd rfl ((mem_register_events_cases d cfg env _ _ _ h).1 data)
    · exact absurd rfl ((mem_setCurVersion_events_cases d cfg env _ _ h).1 data)
  · intro name data hev
    rcases key _ hev with h | h | h | h | h | h
    · simp [Event.isSetup] at h
    · cases h
    · cases h
    · have := (mem_upload_events_cases d cfg env _ _ _ h).2.2.1 name data rfl
      rw [hf] at this
      exact this
    · exact absurd rfl ((mem_register_events_cases d cfg env _ _ _ h).2.1 name data)
    · exact absurd rfl ((mem_setCurVersion_events_cases d cfg env _ _ h).2.1 name data)
  · intro url body hev
    rcases key _ hev with h | h | h | h | h | h
    · simp [Event.isSetup] at h
    · cases h
    · cases h
    · have := (mem_upload_events_cases d cfg env _ _ _ h).2.2.2 url body rfl
      rw [hf] at this
      exact this
    · exact absurd rfl ((mem_register_events_cases d cfg env _ _ _ h).2.2.1 url body)
    · exact absurd rfl ((mem_setCurVersion_events_cases d cfg env _ _ h).2.2.1 url body)
  · intro url dg hev
    rcases key _ hev with h | h | h | h | h | h
    · simp [Event.isSetup] at h
    · cases h
    · cases h
    · exact absurd rfl ((mem_upload_events_cases d cfg env _ _ _ h).2.1 url (.sha256 dg))
    · exact (mem_register_events_cases d cfg env _ _ _ h).2.2.2 url dg rfl
    · exact absurd rfl ((mem_setCurVersion_events_cases d cfg env _ _ h).2.2.2 url dg)

/-- In a run that returns nil over a binary with content `c`: the content is
hashed, the handle is rewound, `upload` compresses the content and stores the
compressed bytes, and `register` sends the digest of the content. -/
theorem Run_nil_data_events (d : Deps) (cfg : Config) (env : Env) (b : Build) (cwd : Path)
    (c : Bytes) (hopen : env.openFile = .ok c) (hnil : (Run d cfg env b cwd).out = .nil) :
    [Event.hashWrite c, Event.seek 0 0, Event.call .upload,
      Event.gzWrite ((Run d cfg env b cwd).b.Name ++ "-" ++ (Run d cfg env b cwd).b.ver) c]
      <:+: (Run d cfg env b cwd).events ∧
    Event.s3put
      (cfg.s3DistURL ++ ((Run d cfg env b cwd).b.Name ++ "-" ++ (Run d cfg env b cwd).b.ver ++
        "-" ++ (Run d cfg env b cwd).b.OS ++ "-" ++ (Run d cfg env b cwd).b.Arch ++ ".gz"))
      (d.gzip ((Run d cfg env b cwd).b.Name ++ "-" ++ (Run d cfg env b cwd).b.ver) c)
      ∈ (Run d cfg env b cwd).events ∧
    Event.httpPut (releaseURL cfg (Run d cfg env b cwd).b (Run d cfg env b cwd).b.ver)
      (.sha256 (d.sha256 c)) ∈ (Run d cfg env b cwd).events := by
  obtain ⟨_, _, _, _, c', hc', _, _, hup, hreg, _, _, hb, _, hevs⟩ :=
    Run_nil_inv d cfg env b cwd hnil
  rw [hopen] at hc'
  injection hc' with hc'
  subst hc'
  have hreg' : (register d cfg env (cloneAndBuild d cfg env b).2.1 (d.sha256 c)).1 = .nil := by
    rw [register_out]; exact hreg
  rw [hevs, hb, upload_events_of_nil d cfg env _ _ hup,
    (register_nil_inv d cfg env _ _ hreg').2]
  simp only [readAll_fresh]
  refine ⟨?_, ?_, ?_⟩
  · refine ⟨[Event.removeAll b.Dir,
        Event.log (" ".intercalate ["git", "clone", "-b", b.Branch, b.Repo, b.Dir]),
        Event.exec ["git", "clone", "-b", b.Branch, b.Repo, b.Dir], Event.chdir b.Dir] ++
        (cloneAndBuild d cfg env b).2.2 ++ [Event.openFile (cloneAndBuild d cfg env b).2.1.Name],
      [Event.s3put
        (cfg.s3DistURL ++ ((cloneAndBuild d cfg env b).2.1.Name ++ "-" ++
          (cloneAndBuild d cfg env b).2.1.ver ++ "-" ++ (cloneAndBuild d cfg env b).2.1.OS ++
          "-" ++ (cloneAndBuild d cfg env b).2.1.Arch ++ ".gz"))
        (d.gzip ((cloneAndBuild d cfg env b).2.1.Name ++ "-" ++
          (cloneAndBuild d cfg env b).2.1.ver) c),
       Event.call .register,
       Event.httpPut (releaseURL cfg (cloneAndBuild d cfg env b).2.1
         (cloneAndBuild d cfg env b).2.1.ver) (.sha256 (d.sha256 c))] ++
       (setCurVersion d cfg env (cloneAndBuild d cfg env b).2.1).2 ++ [Event.chdir ".."], ?_⟩
    simp
  · simp
  · simp

/-- C5: for every content `c` of the built binary, read through one handle:
reading from offset 0 yields all of `c`, a second read without rewinding would
yield nothing, and after `Seek(0, 0)` the next read yields `c` again.  So in
every run the bytes hashed are `c`, the digest `register` sends is the digest
of `c`, and the bytes `upload` feeds into the gzip writer, whose header name
is `Name-ver`, are `c`; and in a run that returns nil these steps occur in the
order hash, rewind, compress. -/
theorem C5_hash_rewind_compress (d : Deps) (cfg : Config) (env : Env) (b : Build)
    (cwd : Path) (c : Bytes) (hopen : env.openFile = .ok c) :
    (File.readAll ⟨c, 0⟩).1 = c ∧
    (File.readAll (File.readAll ⟨c, 0⟩).2).1 = [] ∧
    (File.readAll ((File.readAll ⟨c, 0⟩).2.seekStart 0)).1 = c ∧
    (∀ data, Event.hashWrite data ∈ (Run d cfg env b cwd).events → data = c) ∧
    (∀ name data, Event.gzWrite name data ∈ (Run d cfg env b cwd).events →
      name = (Run d cfg env b cwd).b.Name ++ "-" ++ (Run d cfg env b cwd).b.ver ∧ data = c) ∧
    (∀ url dg, Event.httpPut url (.sha256 dg) ∈ (Run d cfg env b cwd).events →
      dg = d.sha256 c) ∧
    ((Run d cfg env b cwd).out = .nil →
      [Event.hashWrite c, Event.seek 0 0, Event.call .upload,
        Event.gzWrite ((Run d cfg env b cwd).b.Name ++ "-" ++ (Run d cfg env b cwd).b.ver) c]
        <:+: (Run d cfg env b cwd).events ∧
      Event.httpPut (releaseURL cfg (Run d cfg env b cwd).b (Run d cfg env b cwd).b.ver)
        (.sha256 (d.sha256 c)) ∈ (Run d cfg env b cwd).events) := by
  obtain ⟨h1, h2, _, h4⟩ := Run_data_events d cfg env b cwd c hopen
  refine ⟨by simp [File.readAll], by simp [File.readAll], by simp [File.readAll, File.seekStart],
    h1, h2, fun url dg h => (h4 url dg h).2, ?_⟩
  intro hnil
  obtain ⟨h5, _, h6⟩ := Run_nil_data_events d cfg env b cwd c hopen hnil
  exact ⟨h5, h6⟩

/-- C5 at the sample run over the binary `[7, 8, 9, 10]`. -/
theorem C5_hash_rewind_compress_witness :
    [Event.hashWrite [7, 8, 9, 10], Event.seek 0 0, Event.call .upload,
      Event.gzWrite "widget-1.2.3" [7, 8, 9, 10]]
      <:+: (Run sampleDeps sampleCfg (sampleEnvBinary [7, 8, 9, 10]) sampleBuild ["home"]).events ∧
    Event.httpPut "https://dist.example/widget-1.2.3-linux-amd64.json"
      (.sha256 (sampleDeps.sha256 [7, 8, 9, 10])) ∈
      (Run sampleDeps sampleCfg (sampleEnvBinary [7, 8, 9, 10]) sampleBuild ["home"]).events :=
  (C5_hash_rewind_compress sampleDeps sampleCfg (sampleEnvBinary [7, 8, 9, 10]) sampleBuild
    ["home"] [7, 8, 9, 10] rfl).2.2.2.2.2.2 (by decide)

/-- C6 (counterexample): in the sample run, which returns nil, the digest sent
by `register` is the digest of the binary `[1, 2, 3]`, while the bytes stored
at `s3DistURL + "widget-1.2.3-linux-amd64.gz"` are the compressed container;
the digest sent is not the digest of the stored bytes. -/
theorem C6_counterexample_digest_of_stored_bytes :
    (Run sampleDeps sampleCfg sampleEnv sampleBuild ["home"]).out = .nil ∧
    Event.s3put "https://s3.example/widget-1.2.3-linux-amd64.gz"
      (sampleDeps.gzip "widget-1.2.3" [1, 2, 3]) ∈
      (Run sampleDeps sampleCfg sampleEnv sampleBuild ["home"]).events ∧
    Event.httpPut "https://dist.example/widget-1.2.3-linux-amd64.json"
      (.sha256 (sampleDeps.sha256 [1, 2, 3])) ∈
      (Run sampleDeps sampleCfg sampleEnv sampleBuild ["home"]).events ∧
    sampleDeps.sha256 [1, 2, 3] ≠ sampleDeps.sha256 (sampleDeps.gzip "widget-1.2.3" [1, 2, 3]) := by
  decide

/-- In a run that returns nil, the digest sent differs from the digest of the
stored bytes whenever the digest function tells the binary from its
compressed container. -/
theorem Run_digest_ne_of_stored_bytes (d : Deps) (cfg : Config) (env : Env) (b : Build)
    (cwd : Path) (c : Bytes) (hopen : env.openFile = .ok c)
    (hne : ∀ name, d.sha256 (d.gzip name c) ≠ d.sha256 c)
    (url rurl : String) (body dg : Bytes)
    (hput : Event.s3put url body ∈ (Run d cfg env b cwd).events)
    (hreg : Event.httpPut rurl (.sha256 dg) ∈ (Run d cfg env b cwd).events) :
    dg ≠ d.sha256 body := by
  obtain ⟨_, _, h3, h4⟩ := Run_data_events d cfg env b cwd c hopen
  rw [(h3 url body hput).2, (h4 rurl dg hreg).2]
  exact fun h => hne _ h.symm

/-- C6 (amended): in every run that returns nil, with `c` the content of the
built binary, the digest `register` sends to `distURL + Name-ver-OS-Arch.json`
is the digest of `c`, and the bytes `upload` stores at
`s3DistURL + Name-ver-OS-Arch.gz` are the gzip encoding, under the header name
`Name-ver`, of the same `c`; no other digest is sent and no other object is
stored.  So the digest is that of the stored bytes after decompression. -/
theorem C6_digest_of_uncompressed_content (d : Deps) (cfg : Config) (env : Env) (b : Build)
    (cwd : Path) (hnil : (Run d cfg env b cwd).out = .nil) :
    ∃ c, env.openFile = .ok c ∧
      Event.s3put
        (cfg.s3DistURL ++ ((Run d cfg env b cwd).b.Name ++ "-" ++ (Run d cfg env b cwd).b.ver ++
          "-" ++ (Run d cfg env b cwd).b.OS ++ "-" ++ (Run d cfg env b cwd).b.Arch ++ ".gz"))
        (d.gzip ((Run d cfg env b cwd).b.Name ++ "-" ++ (Run d cfg env b cwd).b.ver) c)
        ∈ (Run d cfg env b cwd).events ∧
      Event.httpPut (releaseURL cfg (Run d cfg env b cwd).b (Run d cfg env b cwd).b.ver)
        (.sha256 (d.sha256 c)) ∈ (Run d cfg env b cwd).events ∧
      (∀ url body, Event.s3put url body ∈ (Run d cfg env b cwd).events →
        body = d.gzip ((Run d cfg env b cwd).b.Name ++ "-" ++ (Run d cfg env b cwd).b.ver) c) ∧
      (∀ url dg, Event.httpPut url (.sha256 dg) ∈ (Run d cfg env b cwd).events →
        dg = d.sha256 c) ∧
      (∀ gunzip : Bytes → Bytes, (∀ name data, gunzip (d.gzip name data) = data) →
        ∀ url body rurl dg, Event.s3put url body ∈ (Run d cfg env b cwd).events →
          Event.httpPut rurl (.sha256 dg) ∈ (Run d cfg env b cwd).events →
          dg = d.sha256 (gunzip body)) := by
  obtain ⟨_, _, _, _, c, hopen, _⟩ := Run_nil_inv d cfg env b cwd hnil
  obtain ⟨_, _, h3, h4⟩ := Run_data_events d cfg env b cwd c hopen
  obtain ⟨_, h5, h6⟩ := Run_nil_data_events d cfg env b cwd c hopen hnil
  refine ⟨c, hopen, h5, h6, fun url body h => (h3 url body h).2,
    fun url dg h => (h4 url dg h).2, ?_⟩
  intro gunzip hgz url body rurl dg hput hreg
  rw [(h3 url body hput).2, (h4 rurl dg hreg).2, hgz]

/-- C6 (amended) at the sample run: the stored object and the digest sent. -/
theorem C6_digest_of_uncompressed_content_witness :
    ∃ c, sampleEnv.openFile = .ok c ∧
      Event.s3put "https://s3.example/widget-1.2.3-linux-amd64.gz"
        (sampleDeps.gzip "widget-1.2.3" c) ∈
        (Run sampleDeps sampleCfg sampleEnv sampleBuild ["home"]).events ∧
      Event.httpPut "https://dist.example/widget-1.2.3-linux-amd64.json"
        (.sha256 (sampleDeps.sha256 c)) ∈
        (Run sampleDeps sampleCfg sampleEnv sampleBuild ["home"]).events := by
  obtain ⟨c, h1, h2, h3, _⟩ :=
    C6_digest_of_uncompressed_content sampleDeps sampleCfg sampleEnv sampleBuild ["home"]
      (by decide)
  exact ⟨c, h1, h2, h3⟩

/-! ## The working directory -/

theorem chdirTo_name (cwd : Path) : chdirTo cwd "hk" = cwd ++ ["hk"] := by
  have h : "hk".data = ['h', 'k'] := rfl
  unfold chdirTo
  rw [h]
  simp [splitSlash, stepDir]

theorem chdirTo_up (cwd : Path) : chdirTo cwd ".." = cwd.dropLast := by
  have h : "..".data = ['.', '.'] := rfl
  unfold chdirTo
  rw [h]
  simp [splitSlash, stepDir]

/-- The working directory `Run` leaves behind: the one it was started in when
it stops before or at `os.Chdir(b.Dir)`, the directory `b.Dir` when it stops
later with anything but nil, and the parent of `b.Dir` when it returns nil. -/
theorem Run_cwd (d : Deps) (cfg : Config) (env : Env) (b : Build) (cwd : Path) :
    ((Run d cfg env b cwd).out = .nil →
      (Run d cfg env b cwd).cwd = chdirTo (chdirTo cwd b.Dir) "..") ∧
    (env.removeAll = none → (∃ o, env.gitClone = .ok o) → env.chdirDir = none →
      (Run d cfg env b cwd).out ≠ .nil → (Run d cfg env b cwd).cwd = chdirTo cwd b.Dir) ∧
    ((env.removeAll ≠ none ∨ (∃ e, env.gitClone = .error e) ∨ env.chdirDir ≠ none) →
      (Run d cfg env b cwd).cwd = cwd) := by
  unfold Run
  simp only [cmd]
  split
  · rename_i h; simp [h]
  rename_i hrm
  split
  · rename_i h; simp [h, hrm]
  rename_i o hcl
  split
  · rename_i h; simp [h, hrm]
  rename_i hcd
  split; · simp [hrm, hcl, hcd]
  · simp [hrm, hcl, hcd]
  · simp [hrm, hcl, hcd]
  split; · simp [hrm, hcl, hcd]
  split; · simp [hrm, hcl, hcd]
  split; · simp [hrm, hcl, hcd]
  split; · simp [hrm, hcl, hcd]
  · simp [hrm, hcl, hcd]
  · simp [hrm, hcl, hcd]
  split; · simp [hrm, hcl, hcd]
  · simp [hrm, hcl, hcd]
  · simp [hrm, hcl, hcd]
  split; · simp [hrm, hcl, hcd]
  · simp [hrm, hcl, hcd]
  · simp [hrm, hcl, hcd]
  split <;> simp [hrm, hcl, hcd]

/-- For the directory name `hk` that `main` uses, a run that returns nil ends
in the directory it was started in. -/
theorem Run_cwd_restored_of_nil (d : Deps) (cfg : Config) (env : Env) (b : Build) (cwd : Path)
    (hdir : b.Dir = "hk") (hnil : (Run d cfg env b cwd).out = .nil) :
    (Run d cfg env b cwd).cwd = cwd := by
  rw [(Run_cwd d cfg env b cwd).1 hnil, hdir, chdirTo_name, chdirTo_up]
  simp

/-- For the directory name `hk`, a run that gets past `os.Chdir(b.Dir)` and
then stops with an error ends inside `hk`, not where it was started. -/
theorem Run_cwd_not_restored_of_error (d : Deps) (cfg : Config) (env : Env) (b : Build)
    (cwd : Path) (hdir : b.Dir = "hk") (hrm : env.removeAll = none)
    (hcl : ∃ o, env.gitClone = .ok o) (hcd : env.chdirDir = none)
    (herr : (Run d cfg env b cwd).out ≠ .nil) :
    (Run d cfg env b cwd).cwd = cwd ++ ["hk"] ∧ (Run d cfg env b cwd).cwd ≠ cwd := by
  have h := (Run_cwd d cfg env b cwd).2.1 hrm hcl hcd herr
  rw [hdir, chdirTo_name] at h
  rw [h]
  exact ⟨rfl, by simp⟩

/-- C9 (the code misses the reset on its error returns): in the sample batch
where every tag is `badtag`, the first `Run`, started in `/home/builder`,
returns an error and leaves the working directory at `/home/builder/hk`; the
second platform's `Run` therefore removes and clones `hk` inside it and ends
in `/home/builder/hk/hk`. -/
theorem C9_error_return_keeps_changed_directory :
    (Run sampleDeps sampleCfg (sampleEnvTag "badtag") sampleBuild ["home", "builder"]).out =
      .error (errorfStr "bad tag name: " "badtag") ∧
    (Run sampleDeps sampleCfg (sampleEnvTag "badtag") sampleBuild ["home", "builder"]).cwd =
      ["home", "builder", "hk"] ∧
    (Run sampleDeps sampleCfg (sampleEnvTag "badtag") sampleBuild ["home", "builder"]).cwd ≠
      ["home", "builder"] ∧
    (buildLoop sampleDeps sampleCfg (fun _ => sampleEnvTag "badtag")
      ["linux-amd64", "linux-arm"] 0 ["home", "builder"]).2.1 =
      ["home", "builder", "hk", "hk"] := by
  decide

/-! ## Platforms and the loop of `main` -/

/-- The function `isValidPlatform` accepts every string. -/
theorem isValidPlatform_eq_true (platform : String) : isValidPlatform platform = true := by
  have h : ∀ l, isValidPlatformLoop platform l = true := by
    intro l
    induction l with
    | nil => rfl
    | cons a l ih =>
      unfold isValidPlatformLoop
      split
      · rfl
      · exact ih
  exact h allPlatforms

theorem indexFrom_dash_split (l : List Char) (i : Nat)
    (h : 0 ≤ indexFrom (fun c => decide (c = '-')) l i) :
    ∃ k, indexFrom (fun c => decide (c = '-')) l i = ((i + k : Nat) : Int) ∧
      l.take k ++ '-' :: l.drop (k + 1) = l := by
  induction l generalizing i with
  | nil => simp [indexFrom] at h
  | cons c cs ih =>
    by_cases hc : c = '-'
    · refine ⟨0, ?_, ?_⟩
      · simp [indexFrom, hc]
      · simp [hc]
    · have hstep : indexFrom (fun c => decide (c = '-')) (c :: cs) i =
          indexFrom (fun c => decide (c = '-')) cs (i + 1) := by
        simp [indexFrom, hc]
      rw [hstep] at h
      obtain ⟨k, hk, hsplit⟩ := ih (i + 1) h
      refine ⟨k + 1, ?_, ?_⟩
      · rw [hstep, hk]
        push_cast
        omega
      · simp only [List.take_succ_cons, List.drop_succ_cons, List.cons_append]
        rw [hsplit]

/-- For a platform that contains `-`, the `Build` of the loop of `main`
satisfies `b.Platform() == platform`. -/
theorem mkBuild_Platform (cfg : Config) (platform : String) (h : 0 ≤ indexDash platform) :
    (mkBuild cfg platform (indexDash platform).toNat).Platform = platform := by
  unfold indexDash at h ⊢
  obtain ⟨k, hk, hsplit⟩ := indexFrom_dash_split platform.data 0 h
  rw [hk]
  simp only [Nat.zero_add, Int.toNat_ofNat]
  apply String.ext
  simp only [Build.Platform, mkBuild, String.data_append]
  simpa using hsplit

/-- Every entry of `allPlatforms` contains `-`, and its `Build` has the entry
as platform. -/
theorem allPlatforms_split (cfg : Config) :
    ∀ p ∈ allPlatforms, 0 ≤ indexDash p ∧
      (mkBuild cfg p (indexDash p).toNat).Platform = p := by
  intro p hp
  have h : 0 ≤ indexDash p := by
    revert p
    decide
  exact ⟨h, mkBuild_Platform cfg p h⟩

/-- C10 (the code misses a case): `isValidPlatform` ends in `return true`, so
it accepts `foo`, which is not in `allPlatforms` and contains no `-`;
`hkdist build foo` passes the validation, `strings.Index` yields `-1`, and the
slice `platform[:sepIndex]` panics before any `Build` is made. -/
theorem C10_platform_without_dash_accepted :
    isValidPlatform "foo" = true ∧ "foo" ∉ allPlatforms ∧
    selectPlatforms ["hkdist", "build", "foo"] "linux" "amd64" = some ["foo"] ∧
    indexDash "foo" = -1 ∧
    buildLoop sampleDeps sampleCfg (fun _ => sampleEnv) ["foo"] 0 ["home"] =
      (.panic "runtime error: slice bounds out of range", ["home"], []) := by
  decide

theorem runCalls_append (xs ys : List Event) :
    runCalls (xs ++ ys) = runCalls xs ++ runCalls ys := by
  simp [runCalls, List.filterMap_append]

/-- The events of `Run` itself contain no call of `Run`. -/
theorem runCalls_Run (d : Deps) (cfg : Config) (env : Env) (b : Build) (cwd : Path) :
    runCalls (Run d cfg env b cwd).events = [] := by
  unfold runCalls
  rw [List.filterMap_eq_nil_iff]
  intro ev hev
  rcases Run_events_shape d cfg env b cwd ev hev with h | ⟨c, _, _, _, h⟩
  · cases ev <;> simp_all [Event.isSetup]
  · rcases h with h | h | h | h | h
    · subst h; rfl
    · subst h; rfl
    · rcases upload_events d cfg env _ _ ev h with rfl | rfl | rfl <;> rfl
    · rcases register_events d cfg env _ _ ev h with rfl | rfl <;> rfl
    · rcases setCurVersion_events d cfg env _ ev h with rfl | rfl <;> rfl

/-- `Run` changes at most the field `ver` of its receiver. -/
theorem Run_b_eq (d : Deps) (cfg : Config) (env : Env) (b : Build) (cwd : Path) :
    ∃ v, (Run d cfg env b cwd).b = { b with ver := v } := by
  have hcb : ∃ v, (cloneAndBuild d cfg env b).2.1 = { b with ver := v } := by
    by_cases h : (cloneAndBuild d cfg env b).1 = .nil
    · obtain ⟨_, rest, _, _, _, _, _, _, _, hb, _⟩ := cloneAndBuild_nil_inv d cfg env b h
      exact ⟨_, hb⟩
    · exact ⟨b.ver, cloneAndBuild_build_unchanged d cfg env b h⟩
  have hb : ∃ v, b = { b with ver := v } := ⟨b.ver, rfl⟩
  unfold Run
  simp only [cmd]
  split; · exact hb
  split; · exact hb
  split; · exact hb
  split; · exact hcb
  · exact hcb
  · exact hcb
  split; · exact hcb
  split; · exact hcb
  split; · exact hcb
  split; · exact hcb
  · exact hcb
  · exact hcb
  split; · exact hcb
  · exact hcb
  · exact hcb
  split; · exact hcb
  · exact hcb
  · exact hcb
  split <;> exact hcb

/-- When every requested platform contains `-` and every `Run` returns (with
nil or an error), the loop of `main` runs to its end and calls `Run` exactly
once for each platform, in list order, on the `Build` made from it; and it
logs the error of every platform whose `Run` returned one. -/
theorem buildLoop_runs_every_platform (d : Deps) (cfg : Config) (envOf : Nat → Env)
    (platforms : List String) (i : Nat) (cwd : Path)
    (hdash : ∀ p ∈ platforms, 0 ≤ indexDash p)
    (hret : ∀ j b c, (Run d cfg (envOf j) b c).out.returned = true) :
    (buildLoop d cfg envOf platforms i cwd).1 = .done ∧
    runCalls (buildLoop d cfg envOf platforms i cwd).2.2 =
      platforms.map (fun p => mkBuild cfg p (indexDash p).toNat) ∧
    ∀ k (hk : k < platforms.length) e,
      (∀ c, (Run d cfg (envOf (i + k))
        (mkBuild cfg (platforms.get ⟨k, hk⟩) (indexDash (platforms.get ⟨k, hk⟩)).toNat) c).out =
          .error e) →
      Event.log (buildErrorMsg
        (mkBuild cfg (platforms.get ⟨k, hk⟩) (indexDash (platforms.get ⟨k, hk⟩)).toNat) e) ∈
        (buildLoop d cfg envOf platforms i cwd).2.2 := by
  induction platforms generalizing i cwd with
  | nil => simp [buildLoop, runCalls]
  | cons p ps ih =>
    have hp : ¬ indexDash p < 0 := by
      have := hdash p (List.mem_cons_self _ _)
      omega
    have hps : ∀ q ∈ ps, 0 ≤ indexDash q := fun q hq => hdash q (List.mem_cons_of_mem _ hq)
    have hr := hret i (mkBuild cfg p (indexDash p).toNat) cwd
    have hrc := runCalls_Run d cfg (envOf i) (mkBuild cfg p (indexDash p).toNat) cwd
    have hbe := Run_b_eq d cfg (envOf i) (mkBuild cfg p (indexDash p).toNat) cwd
    have hlog : ∀ (k : Nat) (hk : k < (p :: ps).length) (e : GoError) (hd : Event) (ev tl : List Event),
        (∀ k' (hk' : k' < ps.length) e',
          (∀ c, (Run d cfg (envOf (i + 1 + k'))
            (mkBuild cfg (ps.get ⟨k', hk'⟩) (indexDash (ps.get ⟨k', hk'⟩)).toNat) c).out =
              .error e') →
          Event.log (buildErrorMsg
            (mkBuild cfg (ps.get ⟨k', hk'⟩) (indexDash (ps.get ⟨k', hk'⟩)).toNat) e') ∈ tl) →
        (k = 0 → Event.log (buildErrorMsg (mkBuild cfg p (indexDash p).toNat) e) ∈ ev) →
        (∀ c, (Run d cfg (envOf (i + k))
          (mkBuild cfg ((p :: ps).get ⟨k, hk⟩) (indexDash ((p :: ps).get ⟨k, hk⟩)).toNat) c).out =
            .error e) →
        Event.log (buildErrorMsg
          (mkBuild cfg ((p :: ps).get ⟨k, hk⟩) (indexDash ((p :: ps).get ⟨k, hk⟩)).toNat) e) ∈
          hd :: (ev ++ tl) := by
      intro k hk e hd ev tl htl hev hrun
      cases k with
      | zero =>
        exact List.mem_cons_of_mem _ (List.mem_append_left _ (hev rfl))
      | succ k =>
        have hk' : k < ps.length := by simpa using hk
        have harith : i + (k + 1) = i + 1 + k := by omega
        rw [harith] at hrun
        exact List.mem_cons_of_mem _ (List.mem_append_right _ (htl k hk' e hrun))
    unfold buildLoop
    simp only [hp, if_false]
    split
    · rename_i hout
      obtain ⟨h1, h2, h3⟩ :=
        ih (i + 1) (Run d cfg (envOf i) (mkBuild cfg p (indexDash p).toNat) cwd).cwd hps
      refine ⟨h1, ?_, ?_⟩
      · have hcons : ∀ (x : Event) (xs ys : List Event), x :: xs ++ ys = [x] ++ xs ++ ys := by
          intros; simp
        simp only []
        rw [hcons, runCalls_append, runCalls_append, hrc, h2]
        simp [runCalls]
      · intro k hk e hrun
        refine hlog k hk e _ _ _ h3 ?_ hrun
        intro hk0
        subst hk0
        have this : (Run d cfg (envOf i) (mkBuild cfg p (indexDash p).toNat) cwd).out =
            .error e := hrun cwd
        rw [hout] at this
        cases this
    · rename_i e' hout
      obtain ⟨h1, h2, h3⟩ :=
        ih (i + 1) (Run d cfg (envOf i) (mkBuild cfg p (indexDash p).toNat) cwd).cwd hps
      refine ⟨h1, ?_, ?_⟩
      · have hcons : ∀ (x y : Event) (xs ys : List Event),
            x :: xs ++ y :: ys = [x] ++ xs ++ ([y] ++ ys) := by
          intros; simp
        simp only []
        rw [hcons, runCalls_append, runCalls_append, runCalls_append, hrc, h2]
        simp [runCalls]
      · intro k hk e hrun
        simp only []
        cases k with
        | zero =>
          have this : (Run d cfg (envOf i) (mkBuild cfg p (indexDash p).toNat) cwd).out =
              .error e := hrun cwd
          rw [hout] at this
          injection this with this
          subst this
          obtain ⟨v, hv⟩ := hbe
          have hmsg : buildErrorMsg
              (Run d cfg (envOf i) (mkBuild cfg p (indexDash p).toNat) cwd).b e' =
              buildErrorMsg (mkBuild cfg p (indexDash p).toNat) e' := by
            rw [hv]
            rfl
          rw [hmsg]
          simp
        | succ k =>
          have hk' : k < ps.length := by simpa using hk
          have harith : i + (k + 1) = i + 1 + k := by omega
          rw [harith] at hrun
          have := h3 k hk' e hrun
          simp only [List.get_cons_succ]
          exact List.mem_cons_of_mem _
            (List.mem_append_right _ (List.mem_cons_of_mem _ this))
    · rename_i msg hout
      rw [hout] at hr
      simp [Outcome.returned] at hr
    · rename_i code hout
      rw [hout] at hr
      simp [Outcome.returned] at hr

/-- C8 (the code misses a case, the one of C10): for the requested platforms
`foo linux-amd64`, which pass the validation of `main`, the loop panics at
`foo` and calls `Run` for no platform, `linux-amd64` included. -/
theorem C8_loop_panics_before_later_platforms :
    selectPlatforms ["hkdist", "build", "foo", "linux-amd64"] "linux" "amd64" =
      some ["foo", "linux-amd64"] ∧
    (buildLoop sampleDeps sampleCfg (fun _ => sampleEnv) ["foo", "linux-amd64"] 0 ["home"]).1 =
      .panic "runtime error: slice bounds out of range" ∧
    runCalls
      (buildLoop sampleDeps sampleCfg (fun _ => sampleEnv) ["foo", "linux-amd64"] 0 ["home"]).2.2
      = [] := by
  decide

end Hkdist
